import Mathlib

set_option maxRecDepth 100000

/-!
Verification of the rag-tabular-qa core pipeline.

Shallow embedding of the repository's SQL safety validator
(src/app/rag/sql_safety.py), SQL template builder (src/app/rag/sql_builder.py),
answer synthesizer guard (src/app/rag/answer_synth.py) and the orchestrated
request flow (src/services/api/main.py).  Strings are modeled as lists of
characters; the external SQL parser (sqlglot) and the language model are
modeled as explicit function parameters.  Word characters and whitespace are
modeled over ASCII, matching the data actually flowing through the pipeline.
-/

/-- Strings of the embedded program are lists of characters. -/
abbrev Str := List Char

/-- Coerce a Lean string literal to the embedded string type. -/
def cs (s : String) : Str := s.data

/-- ASCII whitespace, as stripped by Python str.strip(). -/
def isSpace (c : Char) : Bool :=
  c = ' ' || c = '\t' || c = '\n' || c = '\r' || c = '\x0b' || c = '\x0c'

/-- Word characters of the regex classes used by the source: [A-Za-z0-9_]. -/
def isWordChar (c : Char) : Bool :=
  c.isAlpha || c.isDigit || c = '_'

/-- Drop matching characters from the end of a list (Python rstrip). -/
def rdrop (p : Char → Bool) (s : Str) : Str :=
  (s.reverse.dropWhile p).reverse

/-- Python str.strip(): remove whitespace from both ends. -/
def pyStrip (s : Str) : Str :=
  rdrop isSpace (s.dropWhile isSpace)

/-- The normalization prefix of enforce_sql_safety: sql.strip().rstrip(";"). -/
def stripAll (s : Str) : Str :=
  rdrop (fun c => c = ';') (pyStrip s)

/-- Scanner splitting a string into its maximal runs of word characters.
The accumulator holds the current run, reversed. -/
def wordsAux : Str → Str → List Str
  | [], acc => if acc = [] then [] else [acc.reverse]
  | c :: rest, acc =>
    if isWordChar c then wordsAux rest (c :: acc)
    else if acc = [] then wordsAux rest [] else acc.reverse :: wordsAux rest []

/-- All maximal word-character runs of a string.  A whole-word occurrence of a
keyword kw (the regex match of backslash-b kw backslash-b) is exactly
membership of kw in this list. -/
def wordsOf (s : Str) : List Str := wordsAux s []

/-- The write/DDL keywords of WRITE_KEYWORDS in src/app/rag/sql_safety.py. -/
def writeKeywords : List Str :=
  [cs ("INSERT"), cs ("UPDATE"), cs ("DELETE"), cs ("DROP"), cs ("ALTER"),
   cs ("TRUNCATE"), cs ("CREATE"), cs ("REPLACE"), cs ("GRANT"), cs ("REVOKE")]

/-- Model of is_write_query: the case-insensitive whole-word search of
WRITE_KEYWORDS succeeds iff some maximal word run, uppercased, is a keyword. -/
def is_write_query (s : Str) : Bool :=
  (wordsOf s).any (fun w => writeKeywords.contains (w.map Char.toUpper))

/-- Abstraction of the sqlglot parse tree: the only facts enforce_sql_safety
extracts from it.  isSelectLike models (isinstance(parsed, exp.Select) or
parsed.find(exp.Select)); tables models the t.name of every exp.Table node;
isAggregate models _is_aggregate_query; hasLimit models _has_limit. -/
structure ParsedQuery where
  isSelectLike : Bool
  tables : List Str
  isAggregate : Bool
  hasLimit : Bool
deriving DecidableEq

/-- Model of the SQLSafetyError raised by enforce_sql_safety, one constructor
per raise site. -/
inductive SQLSafetyError where
  | emptySql
  | writeNotAllowed
  | parseError
  | onlySelectAllowed
  | disallowedTables (ts : List Str)
deriving DecidableEq

/-- Model of the SQLSafetyConfig dataclass. -/
structure SQLSafetyConfig where
  allowed_tables : List Str
  require_limit_for_non_aggregate : Bool
  default_limit : Int
deriving DecidableEq

/-- The default SQLSafetyConfig (field defaults of the dataclass). -/
def defaultSafetyConfig : SQLSafetyConfig :=
  ⟨[cs ("clients"), cs ("invoices"), cs ("invoice_line_items")], true, 50⟩

deriving instance DecidableEq for Except

/-- Fueled digit renderer; the fuel strictly bounds the argument, which each
division by ten strictly decreases, so it never runs out. -/
def natDigitsAux : Nat → Nat → Str
  | 0, _ => []
  | fuel + 1, n =>
    if n < 10 then [Nat.digitChar n]
    else natDigitsAux fuel (n / 10) ++ [Nat.digitChar (n % 10)]

/-- Decimal digits of a natural number, mirroring Python str(n). -/
def natDigits (n : Nat) : Str := natDigitsAux (n + 1) n

/-- Decimal rendering of an integer, mirroring Python str(i). -/
def intStr (i : Int) : Str :=
  if i < 0 then '-' :: natDigits (-i).toNat else natDigits i.toNat

/-- Model of _extract_table_names: unqualified table names, lowercased,
collected as a set (first-occurrence order). -/
def extract_table_names (pq : ParsedQuery) : List Str :=
  (pq.tables.map (List.map Char.toLower)).dedup

/-- Model of enforce_sql_safety from src/app/rag/sql_safety.py, parameterized
by the external parser.  parse returns none when sqlglot.parse_one raises. -/
def enforce_sql_safety (parse : Str → Option ParsedQuery) (sql : Str)
    (cfg : SQLSafetyConfig) : Except SQLSafetyError Str :=
  let s := stripAll sql
  if s = [] then .error .emptySql
  else if is_write_query s = true then .error .writeNotAllowed
  else
    match parse s with
    | none => .error .parseError
    | some pq =>
      if pq.isSelectLike = false then .error .onlySelectAllowed
      else
        let tables := extract_table_names pq
        let allowed := cfg.allowed_tables.map (List.map Char.toLower)
        let disallowed := tables.filter (fun t => decide (¬ t ∈ allowed))
        if disallowed = [] then
          let s2 :=
            if (cfg.require_limit_for_non_aggregate && !pq.isAggregate
                && !pq.hasLimit) = true
            then s ++ cs (" LIMIT ") ++ intStr cfg.default_limit
            else s
          .ok (s2 ++ [';'])
        else .error (.disallowedTables disallowed)

/-- SQL template of intent LIST_CLIENTS (src/app/rag/sql_builder.py). -/
def sqlListClients : Str :=
  cs ("\n            SELECT client_id, client_name, industry, country\n            FROM clients\n            ORDER BY client_name\n            ")

/-- SQL template of intent CLIENTS_BY_COUNTRY (src/app/rag/sql_builder.py). -/
def sqlClientsByCountry : Str :=
  cs ("\n            SELECT client_id, client_name, industry, country\n            FROM clients\n            WHERE country = :country\n            ORDER BY client_name\n            ")

/-- SQL template of intent INVOICES_BY_MONTH (src/app/rag/sql_builder.py). -/
def sqlInvoicesByMonth : Str :=
  cs ("\n            SELECT invoice_id, client_id, invoice_date, due_date, status, currency\n            FROM invoices\n            WHERE YEAR(invoice_date)=:year AND MONTH(invoice_date)=:month\n            ORDER BY invoice_date, invoice_id\n            ")

/-- SQL template of intent INVOICES_BY_STATUS (src/app/rag/sql_builder.py). -/
def sqlInvoicesByStatus : Str :=
  cs ("\n            SELECT invoice_id, client_id, invoice_date, due_date, status, currency\n            FROM invoices\n            WHERE status = :status\n            ORDER BY due_date, invoice_id\n            ")

/-- SQL template of intent CLIENT_INVOICES (src/app/rag/sql_builder.py). -/
def sqlClientInvoices : Str :=
  cs ("\n            SELECT\n              i.invoice_id,\n              i.invoice_date,\n              i.due_date,\n              i.status,\n              i.currency\n            FROM invoices i\n            JOIN clients c ON c.client_id = i.client_id\n            WHERE c.client_name = :client_name\n            ORDER BY i.invoice_date, i.invoice_id\n            ")

/-- SQL template of intent INVOICES_BY_CLIENT_AND_MONTH (src/app/rag/sql_builder.py). -/
def sqlInvoicesByClientAndMonth : Str :=
  cs ("\n            SELECT\n              i.invoice_id,\n              i.invoice_date,\n              i.due_date,\n              i.status,\n              i.currency\n            FROM invoices i\n            JOIN clients c ON c.client_id = i.client_id\n            WHERE c.client_name = :client_name\n              AND YEAR(i.invoice_date) = :year\n              AND MONTH(i.invoice_date) = :month\n            ORDER BY i.invoice_date, i.invoice_id\n            ")

/-- SQL template of intent OVERDUE_INVOICES_AS_OF_DATE (src/app/rag/sql_builder.py). -/
def sqlOverdueInvoices : Str :=
  cs ("\n            SELECT\n              i.invoice_id,\n              c.client_name,\n              i.invoice_date,\n              i.due_date,\n              i.status,\n              i.currency\n            FROM invoices i\n            JOIN clients c ON c.client_id = i.client_id\n            WHERE i.status = \x27Overdue\x27\n              AND i.due_date < :as_of_date\n            ORDER BY i.due_date, i.invoice_id\n            ")

/-- SQL template of intent INVOICE_LINE_ITEMS (src/app/rag/sql_builder.py). -/
def sqlInvoiceLineItems : Str :=
  cs ("\n            SELECT\n              line_id,\n              invoice_id,\n              service_name,\n              quantity,\n              unit_price,\n              tax_rate,\n              (quantity * unit_price) * (1 + tax_rate) AS line_total_including_tax\n            FROM invoice_line_items\n            WHERE invoice_id = :invoice_id\n            ORDER BY line_id\n            ")

/-- SQL template of intent LINE_ITEM_COUNT_BY_SERVICE (src/app/rag/sql_builder.py). -/
def sqlLineItemCountByService : Str :=
  cs ("\n            SELECT\n              service_name,\n              COUNT(*) AS line_item_count\n            FROM invoice_line_items\n            GROUP BY service_name\n            ORDER BY line_item_count DESC, service_name\n            ")

/-- SQL template of intent CLIENT_TOTAL_BILLED_BY_YEAR (src/app/rag/sql_builder.py). -/
def sqlClientTotalBilledByYear : Str :=
  cs ("\n            SELECT\n              c.client_id,\n              c.client_name,\n              SUM((li.quantity * li.unit_price) * (1 + li.tax_rate)) AS total_billed_including_tax\n            FROM clients c\n            JOIN invoices i ON i.client_id = c.client_id\n            JOIN invoice_line_items li ON li.invoice_id = i.invoice_id\n            WHERE YEAR(i.invoice_date) = :year\n            GROUP BY c.client_id, c.client_name\n            ORDER BY total_billed_including_tax DESC, c.client_name\n            ")

/-- SQL template of intent TOP_CLIENT_BY_YEAR (src/app/rag/sql_builder.py). -/
def sqlTopClientByYear : Str :=
  cs ("\n            SELECT\n              c.client_id,\n              c.client_name,\n              SUM((li.quantity * li.unit_price) * (1 + li.tax_rate)) AS total_billed_including_tax\n            FROM clients c\n            JOIN invoices i ON i.client_id = c.client_id\n            JOIN invoice_line_items li ON li.invoice_id = i.invoice_id\n            WHERE YEAR(i.invoice_date) = :year\n            GROUP BY c.client_id, c.client_name\n            ORDER BY total_billed_including_tax DESC\n            LIMIT 1\n            ")

/-- SQL template of intent REVENUE_BY_COUNTRY (src/app/rag/sql_builder.py). -/
def sqlRevenueByCountry : Str :=
  cs ("\n            SELECT\n              c.country,\n              SUM((li.quantity * li.unit_price) * (1 + li.tax_rate)) AS total_billed_including_tax\n            FROM clients c\n            JOIN invoices i ON i.client_id = c.client_id\n            JOIN invoice_line_items li ON li.invoice_id = i.invoice_id\n            WHERE YEAR(i.invoice_date) = :year\n            GROUP BY c.country\n            ORDER BY total_billed_including_tax DESC, c.country\n            ")

/-- SQL template of intent SERVICE_CLIENT_TOTALS (src/app/rag/sql_builder.py). -/
def sqlServiceClientTotals : Str :=
  cs ("\n            SELECT\n              c.client_id,\n              c.client_name,\n              SUM((li.quantity * li.unit_price) * (1 + li.tax_rate)) AS total_paid_including_tax\n            FROM invoice_line_items li\n            JOIN invoices i ON i.invoice_id = li.invoice_id\n            JOIN clients c ON c.client_id = i.client_id\n            WHERE li.service_name = :service_name\n              AND YEAR(i.invoice_date) = :year\n            GROUP BY c.client_id, c.client_name\n            ORDER BY total_paid_including_tax DESC, c.client_name\n            ")

/-- SQL template of TOP_SERVICES_BY_REVENUE, part before the inlined limit. -/
def sqlTopServicesA : Str :=
  cs ("\n            SELECT\n              li.service_name,\n              SUM((li.quantity * li.unit_price) * (1 + li.tax_rate)) AS total_revenue_including_tax\n            FROM invoice_line_items li\n            JOIN invoices i ON i.invoice_id = li.invoice_id\n            WHERE YEAR(i.invoice_date) = :year\n            GROUP BY li.service_name\n            ORDER BY total_revenue_including_tax DESC, li.service_name\n            LIMIT ")

/-- SQL template of TOP_SERVICES_BY_REVENUE, part after the inlined limit. -/
def sqlTopServicesB : Str :=
  cs ("\n            ")

/-- SQL template of TOP_SERVICES_EU_H2, part before the IN placeholders. -/
def euSqlA : Str :=
  cs ("\n            SELECT\n              li.service_name,\n              SUM((li.quantity * li.unit_price) * (1 + li.tax_rate)) AS total_revenue_including_tax\n            FROM invoice_line_items li\n            JOIN invoices i ON i.invoice_id = li.invoice_id\n            JOIN clients c ON c.client_id = i.client_id\n            WHERE i.invoice_date >= :start_date\n              AND i.invoice_date <= :end_date\n              AND c.country IN (")

/-- SQL template of TOP_SERVICES_EU_H2, between placeholders and limit. -/
def euSqlB : Str :=
  cs (")\n            GROUP BY li.service_name\n            ORDER BY total_revenue_including_tax DESC, li.service_name\n            LIMIT ")

/-- SQL template of TOP_SERVICES_EU_H2, part after the inlined limit. -/
def euSqlC : Str :=
  cs ("\n            ")

/-- Parameter values bound into SQL: the only value shapes the builder binds
(strings, integers, or Python None coming from unset plan slots). -/
inductive PVal where
  | vStr (s : Str)
  | vInt (n : Int)
  | vNone
deriving DecidableEq

/-- Embed an optional string slot as a bound parameter value. -/
def ov : Option Str → PVal
  | some s => .vStr s
  | none => .vNone

/-- Embed an optional integer slot as a bound parameter value. -/
def oi : Option Int → PVal
  | some n => .vInt n
  | none => .vNone

/-- Model of the QueryPlan produced by the router: intent plus typed slots,
unset slots explicit nones. -/
structure QueryPlan where
  intent : Str
  client_name : Option Str
  country : Option Str
  invoice_id : Option Int
  status : Option Str
  year : Option Int
  month : Option Int
  as_of_date : Option Str
  start_date : Option Str
  end_date : Option Str
  service_name : Option Str
  limit : Option Int
  countries : List Str
deriving DecidableEq

/-- Model of the BuiltSQL dataclass: SQL text plus named parameter bindings
(association list in the dict insertion order of the source). -/
structure BuiltSQL where
  sql : Str
  params : List (Str × PVal)
deriving DecidableEq

/-- Model of _safe_limit: clamp an optional limit into [min_v, max_v] with a
default fallback (the int(n) conversion cannot fail on a typed Int). -/
def safe_limit (n : Option Int) (dflt min_v max_v : Int) : Int :=
  match n with
  | none => dflt
  | some v => max min_v (min max_v v)

/-- Named placeholder text c<i> as inlined into the IN clause. -/
def pcName (i : Nat) : Str := ':' :: 'c' :: natDigits i

/-- Parameter key c<i> of the countries bindings. -/
def cName (i : Nat) : Str := 'c' :: natDigits i

/-- The conservative fallback country list of the TOP_SERVICES_EU_H2 branch. -/
def fallbackCountries : List Str :=
  [cs ("UK"), cs ("France"), cs ("Germany"), cs ("Netherlands"), cs ("Spain"),
   cs ("Italy")]

/-- Countries actually used by the EU branch: plan.countries, or the fallback
when the plan provides none. -/
def countriesUsed (cl : List Str) : List Str :=
  if cl = [] then fallbackCountries else cl

/-- The joined placeholder text ":c0, :c1, ..." for n countries. -/
def euPlaceholders (n : Nat) : Str :=
  List.intercalate (cs (", ")) ((List.range n).map pcName)

/-- The country parameter bindings \x7bc<i>: countries[i]\x7d. -/
def euCParams (cl : List Str) : List (Str × PVal) :=
  cl.enum.map (fun ic => (cName ic.1, PVal.vStr ic.2))

/-- Full SQL text of the TOP_SERVICES_EU_H2 branch. -/
def euSqlOf (cl : List Str) (lim : Int) : Str :=
  euSqlA ++ euPlaceholders cl.length ++ euSqlB ++ intStr lim ++ euSqlC

/-- Full parameter bindings of the TOP_SERVICES_EU_H2 branch: country params
then start_date and end_date (dict update order of the source). -/
def euParamsOf (cl : List Str) (sd ed : Option Str) : List (Str × PVal) :=
  euCParams cl ++ [(cs ("start_date"), ov sd), (cs ("end_date"), ov ed)]

/-- Model of build_sql from src/app/rag/sql_builder.py.  Returns none where
the source raises ValueError for an unsupported intent. -/
def build_sql (plan : QueryPlan) : Option BuiltSQL :=
  if plan.intent = cs ("LIST_CLIENTS") then
    some ⟨sqlListClients, []⟩
  else if plan.intent = cs ("CLIENTS_BY_COUNTRY") then
    some ⟨sqlClientsByCountry, [(cs ("country"), ov plan.country)]⟩
  else if plan.intent = cs ("INVOICES_BY_MONTH") then
    some ⟨sqlInvoicesByMonth,
          [(cs ("year"), oi plan.year), (cs ("month"), oi plan.month)]⟩
  else if plan.intent = cs ("INVOICES_BY_STATUS") then
    some ⟨sqlInvoicesByStatus, [(cs ("status"), ov plan.status)]⟩
  else if plan.intent = cs ("CLIENT_INVOICES") then
    some ⟨sqlClientInvoices, [(cs ("client_name"), ov plan.client_name)]⟩
  else if plan.intent = cs ("INVOICES_BY_CLIENT_AND_MONTH") then
    some ⟨sqlInvoicesByClientAndMonth,
          [(cs ("client_name"), ov plan.client_name),
           (cs ("year"), oi plan.year), (cs ("month"), oi plan.month)]⟩
  else if plan.intent = cs ("OVERDUE_INVOICES_AS_OF_DATE") then
    some ⟨sqlOverdueInvoices, [(cs ("as_of_date"), ov plan.as_of_date)]⟩
  else if plan.intent = cs ("INVOICE_LINE_ITEMS") then
    some ⟨sqlInvoiceLineItems, [(cs ("invoice_id"), oi plan.invoice_id)]⟩
  else if plan.intent = cs ("LINE_ITEM_COUNT_BY_SERVICE") then
    some ⟨sqlLineItemCountByService, []⟩
  else if plan.intent = cs ("CLIENT_TOTAL_BILLED_BY_YEAR") then
    some ⟨sqlClientTotalBilledByYear, [(cs ("year"), oi plan.year)]⟩
  else if plan.intent = cs ("TOP_CLIENT_BY_YEAR") then
    some ⟨sqlTopClientByYear, [(cs ("year"), oi plan.year)]⟩
  else if plan.intent = cs ("TOP_SERVICES_BY_REVENUE") then
    some ⟨sqlTopServicesA ++ intStr (safe_limit plan.limit 3 1 50)
            ++ sqlTopServicesB,
          [(cs ("year"), oi plan.year)]⟩
  else if plan.intent = cs ("REVENUE_BY_COUNTRY") then
    some ⟨sqlRevenueByCountry, [(cs ("year"), oi plan.year)]⟩
  else if plan.intent = cs ("SERVICE_CLIENT_TOTALS") then
    some ⟨sqlServiceClientTotals,
          [(cs ("service_name"), ov plan.service_name),
           (cs ("year"), oi plan.year)]⟩
  else if plan.intent = cs ("TOP_SERVICES_EU_H2") then
    some ⟨euSqlOf (countriesUsed plan.countries) (safe_limit plan.limit 3 1 50),
          euParamsOf (countriesUsed plan.countries) plan.start_date
            plan.end_date⟩
  else none

/-- Substring test: does the haystack contain the pattern? -/
def containsStr (hay pat : Str) : Bool := decide (pat <:+: hay)

/-- Scanner collecting the named :placeholder references of a SQL text.  The
state is none outside a placeholder, or some acc (reversed name so far) after
a colon. -/
def phScan : Str → Option Str → List Str
  | [], none => []
  | [], some acc => if acc = [] then [] else [acc.reverse]
  | c :: rest, none =>
    if c = ':' then phScan rest (some []) else phScan rest none
  | c :: rest, some acc =>
    if isWordChar c then phScan rest (some (c :: acc))
    else
      let cont := if c = ':' then phScan rest (some []) else phScan rest none
      if acc = [] then cont else acc.reverse :: cont

/-- All named placeholders referenced in a SQL text, in order of occurrence. -/
def namedPlaceholders (s : Str) : List Str := phScan s none

/-- First-match association lookup (Python dict access on the params). -/
def assocLookup (k : Str) : List (Str × PVal) → Option PVal
  | [] => none
  | kv :: rest => if kv.1 = k then some kv.2 else assocLookup k rest

/-- Greedy match of the numeric token regex digits([.,]digits)? at the head of
the list; returns the token and the remaining input. -/
def numTake (l : Str) : Str × Str :=
  let ds := l.takeWhile Char.isDigit
  let r := l.dropWhile Char.isDigit
  match r with
  | [] => (ds, [])
  | c :: rest =>
    if (c = '.' || c = ',') &&
        (match rest with | [] => false | d :: _ => d.isDigit) then
      (ds ++ c :: rest.takeWhile Char.isDigit, rest.dropWhile Char.isDigit)
    else (ds, r)

/-- Left-to-right scan of _NUM_RE.finditer: a numeric token may start at a
digit not preceded by an ASCII letter; scanning resumes after each match.
Fuel is the input length plus one, enough since every step consumes input. -/
def findNumsAux : Nat → Option Char → Str → List Str
  | _, _, [] => []
  | 0, _, _ => []
  | fuel+1, prev, c :: rest =>
    if c.isDigit && !(match prev with | some p => p.isAlpha | none => false)
    then
      let t := numTake (c :: rest)
      t.1 :: findNumsAux fuel (some (t.1.getLastD c)) t.2
    else findNumsAux fuel (some c) rest

/-- Model of _numbers_in_text: the set of numeric substrings of a text. -/
def numbersInText (s : Str) : List Str :=
  (findNumsAux (s.length + 1) none s).dedup

/-- The two language-model responses one synthesize call can consume: the
draft narrative and the response to the single corrective re-prompt. -/
structure SynthLLM where
  draftResp : Str
  fixResp : Str
deriving DecidableEq

/-- The unsupported numbers of the draft: numeric substrings of the stripped
draft absent from the serialized row data (the rowsBlob argument models
json.dumps(rows) from _numbers_in_rows). -/
def extraNumbers (llm : SynthLLM) (rowsBlob : Str) : List Str :=
  (numbersInText (pyStrip llm.draftResp)).filter
    (fun u => decide (¬ u ∈ numbersInText rowsBlob))

/-- Model of AnswerSynth.synthesize: returns the final narrative and the
number of model calls made (1 without re-prompt, 2 with the single corrective
re-prompt).  The corrected response is returned without re-checking. -/
def synthesize (llm : SynthLLM) (rowsBlob : Str) : Str × Nat :=
  if extraNumbers llm rowsBlob = [] then (pyStrip llm.draftResp, 1)
  else (pyStrip llm.fixResp, 2)

/-- Result rows are mappings column name to value. -/
abbrev Row := List (Str × PVal)

/-- Model of the SQLRunResult dataclass. -/
structure SQLRunResult where
  sql : Str
  params : List (Str × PVal)
  rows : List Row
  row_count : Nat
deriving DecidableEq

/-- Model of SQLAgent.run_sql: validate through enforce_sql_safety, then fetch
all rows (db models the database: rows returned for the safe SQL). -/
def run_sql_model (parse : Str → Option ParsedQuery) (cfg : SQLSafetyConfig)
    (db : Str → List Row) (sql : Str) (params : List (Str × PVal)) :
    Except SQLSafetyError SQLRunResult :=
  match enforce_sql_safety parse sql cfg with
  | .error e => .error e
  | .ok safe => .ok ⟨safe, params, db safe, (db safe).length⟩

/-- Model of the router decision consumed by the /chat endpoint. -/
structure RouterResult where
  action : Str
  plan : Option QueryPlan
  clarifying_question : Option Str
  missing_fields : List Str
  refusal_message : Option Str
deriving DecidableEq

/-- Model of the FreeformSQL value: raw model output and validated SQL. -/
structure FreeformResult where
  raw_sql : Str
  safe_sql : Str
deriving DecidableEq

/-- Model of the ChatResponse payload built on the QUERY success path. -/
structure ChatResponse where
  action : Str
  mode : Str
  narrative : Str
  sql : Str
  params : List (Str × PVal)
  rows : List Row
  row_count : Nat
deriving DecidableEq

/-- Outcome of one request: the three terminal response kinds of the endpoint,
or a propagated exception (failed). -/
inductive ChatOut where
  | refuse (msg : Option Str)
  | clarify (q : Option Str) (missing : List Str)
  | success (resp : ChatResponse)
  | failed (err : Str)
deriving DecidableEq

/-- Hybrid selection of the /chat endpoint: the deterministic SQL when the
plan exists, is not FREEFORM_SQL, and the builder supports it; none means the
try-block raised and the endpoint falls back to freeform generation. -/
def detSel (plan : Option QueryPlan) : Option (Str × List (Str × PVal)) :=
  match plan with
  | none => none
  | some pl =>
    if pl.intent = cs ("FREEFORM_SQL") then none
    else
      match build_sql pl with
      | some b => some (b.sql, b.params)
      | none => none

/-- The QUERY success response: narrative, executed SQL, first 50 rows, and
the total row count. -/
def mkResponse (mode : Str) (synthNarr : Str → List Row → Str)
    (run : SQLRunResult) : ChatResponse :=
  ⟨cs ("QUERY"), mode, synthNarr run.sql run.rows, run.sql, run.params,
   run.rows.take 50, run.rows.length⟩

/-- Model of the /chat endpoint of src/services/api/main.py: route dispatch,
hybrid selection, execution with at most one freeform repair, synthesis.
Returns the outcome and the number of repair attempts made. -/
def chat (route : RouterResult) (gen : FreeformResult)
    (repairf : Str → Str → FreeformResult)
    (runSql : Str → List (Str × PVal) → Except Str SQLRunResult)
    (synthNarr : Str → List Row → Str) : ChatOut × Nat :=
  if route.action = cs ("REFUSE") then (.refuse route.refusal_message, 0)
  else if route.action = cs ("CLARIFY") then
    (.clarify route.clarifying_question route.missing_fields, 0)
  else
    match detSel route.plan with
    | some sp =>
      match runSql sp.1 sp.2 with
      | .ok run => (.success (mkResponse (cs ("deterministic")) synthNarr run), 0)
      | .error e => (.failed e, 0)
    | none =>
      match runSql gen.safe_sql [] with
      | .ok run => (.success (mkResponse (cs ("freeform")) synthNarr run), 0)
      | .error e =>
        match runSql (repairf gen.safe_sql e).safe_sql [] with
        | .ok run => (.success (mkResponse (cs ("freeform")) synthNarr run), 1)
        | .error e2 => (.failed e2, 1)

/-- Witness parser returning no parse tree (models a sqlglot parse failure). -/
def parseNone : Str → Option ParsedQuery := fun _ => none

/-- Witness parser: a SELECT over a table outside the allow-list. -/
def parseSecrets : Str → Option ParsedQuery :=
  fun _ => some ⟨true, [cs ("secrets")], false, false⟩

/-- Witness parser: a plain non-aggregate SELECT over clients with no LIMIT. -/
def parseClients : Str → Option ParsedQuery :=
  fun _ => some ⟨true, [cs ("clients")], false, false⟩

/-- Witness parser detecting a LIMIT clause textually, so that appending a
LIMIT clause flips hasLimit while the other facts stay fixed. -/
def parseW : Str → Option ParsedQuery :=
  fun t => some ⟨true, [cs ("clients")], false, containsStr t (cs (" LIMIT "))⟩

/-- Plan with only the intent set. -/
def planOf (intent : Str) : QueryPlan :=
  ⟨intent, none, none, none, none, none, none, none, none, none, none, none, []⟩

/-- Plan requesting the top services with limit 100 for the year 2024. -/
def pTop100 : QueryPlan :=
  ⟨cs ("TOP_SERVICES_BY_REVENUE"), none, none, none, none, some 2024, none,
   none, none, none, none, some 100, []⟩

/-- Plan for the EU H2 intent with two explicit countries. -/
def pEU : QueryPlan :=
  ⟨cs ("TOP_SERVICES_EU_H2"), none, none, none, none, none, none, none,
   some (cs ("2024-07-01")), some (cs ("2024-12-31")), none, none,
   [cs ("UK"), cs ("France")]⟩

/-- Language-model responses whose correction still contains an unsupported
number. -/
def llmBad : SynthLLM :=
  ⟨cs ("The total is 1500."), cs ("It is still about 1500.")⟩

/-- Language-model responses whose draft only uses supported numbers. -/
def llmGood : SynthLLM :=
  ⟨cs ("The total is 1234.5."), cs ("unused")⟩

/-- Serialized row data of the fixture row set. -/
def blobRows : Str := cs ("[\x7b\"total\": 1234.5\x7d]")

/-- Router fixture: a QUERY decision whose plan asks for freeform SQL. -/
def routeFF : RouterResult :=
  ⟨cs ("QUERY"), some (planOf (cs ("FREEFORM_SQL"))), none, [], none⟩

/-- Router fixture: a QUERY decision with a deterministic intent. -/
def routeDet : RouterResult :=
  ⟨cs ("QUERY"), some (planOf (cs ("LIST_CLIENTS"))), none, [], none⟩

/-- Freeform generation fixture. -/
def genFix : FreeformResult := ⟨cs ("SELECT 1"), cs ("SELECT 1;")⟩

/-- Freeform repair fixture. -/
def repairFix : Str → Str → FreeformResult :=
  fun _ _ => ⟨cs ("SELECT 2"), cs ("SELECT 2;")⟩

/-- Execution fixture that always fails. -/
def runFailAll : Str → List (Str × PVal) → Except Str SQLRunResult :=
  fun _ _ => .error (cs ("boom"))

/-- Execution fixture returning sixty empty rows for any SQL. -/
def runSixty : Str → List (Str × PVal) → Except Str SQLRunResult :=
  fun s ps => .ok ⟨s, ps, List.replicate 60 [], 60⟩

/-- Narrative synthesis fixture. -/
def synthFix : Str → List Row → Str := fun _ _ => cs ("ok")

/-- Run-result fixture holding sixty empty rows. -/
def runRows60 : SQLRunResult := ⟨sqlListClients, [], List.replicate 60 [], 60⟩

/-- Plan fixture for the per-client yearly totals intent. -/
def pCTB : QueryPlan := planOf (cs ("CLIENT_TOTAL_BILLED_BY_YEAR"))

/-- The BuiltSQL produced for pCTB. -/
def bCTB : BuiltSQL :=
  ⟨sqlClientTotalBilledByYear, [(cs ("year"), PVal.vNone)]⟩

/-- The BuiltSQL produced for pTop100 (limit clamped to 50). -/
def bTop100 : BuiltSQL :=
  ⟨sqlTopServicesA ++ intStr 50 ++ sqlTopServicesB,
   [(cs ("year"), PVal.vInt 2024)]⟩

/-- The BuiltSQL produced for pEU. -/
def bEU : BuiltSQL :=
  ⟨euSqlOf [cs ("UK"), cs ("France")] 3,
   euParamsOf [cs ("UK"), cs ("France")] (some (cs ("2024-07-01")))
     (some (cs ("2024-12-31")))⟩


/-- euSqlA without its final opening parenthesis (scanner split point). -/
def euSqlAHead : Str :=
  cs ("\n            SELECT\n              li.service_name,\n              SUM((li.quantity * li.unit_price) * (1 + li.tax_rate)) AS total_revenue_including_tax\n            FROM invoice_line_items li\n            JOIN invoices i ON i.invoice_id = li.invoice_id\n            JOIN clients c ON c.client_id = i.client_id\n            WHERE i.invoice_date >= :start_date\n              AND i.invoice_date <= :end_date\n              AND c.country IN ")

/-- euSqlB without its leading closing parenthesis (scanner split point). -/
def euSqlBTail : Str :=
  cs ("\n            GROUP BY li.service_name\n            ORDER BY total_revenue_including_tax DESC, li.service_name\n            LIMIT ")

/-- sqlTopServicesA without its final space (scanner split point). -/
def sqlTopServicesAHead : Str :=
  cs ("\n            SELECT\n              li.service_name,\n              SUM((li.quantity * li.unit_price) * (1 + li.tax_rate)) AS total_revenue_including_tax\n            FROM invoice_line_items li\n            JOIN invoices i ON i.invoice_id = li.invoice_id\n            WHERE YEAR(i.invoice_date) = :year\n            GROUP BY li.service_name\n            ORDER BY total_revenue_including_tax DESC, li.service_name\n            LIMIT")

/-- Decimal value of a digit string, used to show the digit rendering is
injective. -/
def natVal (l : Str) : Nat :=
  l.foldl (fun a c => 10 * a + (c.toNat - 48)) 0

theorem wordsAux_nonword_all {l : Str} (h : ∀ c ∈ l, isWordChar c = false) :
    ∀ acc, wordsAux l acc = wordsAux [] acc := by
  induction l with
  | nil => intro acc; rfl
  | cons c rest ih =>
    intro acc
    have hc : isWordChar c = false := h c (List.mem_cons_self c rest)
    have hrest : ∀ x ∈ rest, isWordChar x = false :=
      fun x hx => h x (List.mem_cons_of_mem c hx)
    simp only [wordsAux, hc, Bool.false_eq_true, if_false]
    by_cases hacc : acc = []
    · subst hacc
      simp only [if_pos rfl]
      rw [ih hrest]
      rfl
    · simp only [if_neg hacc]
      rw [ih hrest]
      simp [wordsAux, hacc]

theorem wordsAux_append_nonword {suf : Str}
    (h : ∀ c ∈ suf, isWordChar c = false) :
    ∀ (l : Str) (acc : Str), wordsAux (l ++ suf) acc = wordsAux l acc := by
  intro l
  induction l with
  | nil =>
    intro acc
    simp only [List.nil_append]
    exact wordsAux_nonword_all h acc
  | cons c rest ih =>
    intro acc
    simp only [List.cons_append, wordsAux]
    by_cases hc : isWordChar c
    · simp only [hc, if_true]
      exact ih (c :: acc)
    · simp only [hc, Bool.false_eq_true, if_false]
      by_cases hacc : acc = []
      · simp only [if_pos hacc]
        exact ih []
      · simp only [if_neg hacc]
        exact congrArg (fun x => List.reverse acc :: x) (ih [])

theorem wordsAux_prefix_nonword {pre : Str}
    (h : ∀ c ∈ pre, isWordChar c = false) (l : Str) :
    wordsAux (pre ++ l) [] = wordsAux l [] := by
  induction pre with
  | nil => rfl
  | cons c rest ih =>
    have hc : isWordChar c = false := h c (List.mem_cons_self c rest)
    have hrest : ∀ x ∈ rest, isWordChar x = false :=
      fun x hx => h x (List.mem_cons_of_mem c hx)
    simp only [List.cons_append, wordsAux, hc, Bool.false_eq_true, if_false,
      if_pos rfl]
    exact ih hrest

theorem wordsAux_break {c : Char} (hc : isWordChar c = false) :
    ∀ (a b acc : Str),
      wordsAux (a ++ c :: b) acc = wordsAux a acc ++ wordsAux b [] := by
  intro a
  induction a with
  | nil =>
    intro b acc
    simp only [List.nil_append, wordsAux, hc, Bool.false_eq_true, if_false]
    by_cases hacc : acc = []
    · simp [hacc, wordsAux]
    · simp [hacc, wordsAux]
  | cons d a' ih =>
    intro b acc
    simp only [List.cons_append, wordsAux]
    by_cases hd : isWordChar d
    · simp only [hd, if_true]
      exact ih b (d :: acc)
    · simp only [hd, Bool.false_eq_true, if_false]
      by_cases hacc : acc = []
      · simp only [if_pos hacc]
        exact ih b []
      · simp only [if_neg hacc]
        exact congrArg (fun x => List.reverse acc :: x) (ih b [])

theorem wordsAux_allword {w : Str} (h : ∀ c ∈ w, isWordChar c = true) :
    ∀ acc, wordsAux w acc =
      if acc.reverse ++ w = [] then [] else [acc.reverse ++ w] := by
  induction w with
  | nil =>
    intro acc
    simp only [wordsAux, List.append_nil]
    by_cases hacc : acc = []
    · simp [hacc]
    · simp only [if_neg hacc]
      have : acc.reverse ≠ [] := by
        simpa using hacc
      simp [this]
  | cons c w' ih =>
    intro acc
    have hc : isWordChar c = true := h c (List.mem_cons_self c w')
    have hw' : ∀ x ∈ w', isWordChar x = true :=
      fun x hx => h x (List.mem_cons_of_mem c hx)
    simp only [wordsAux, hc, if_true]
    rw [ih hw' (c :: acc)]
    simp

theorem words_chars {l : Str} :
    ∀ {acc : Str}, (∀ c ∈ acc, isWordChar c = true) →
      ∀ w ∈ wordsAux l acc, ∀ c ∈ w, isWordChar c = true ∧ (c ∈ l ∨ c ∈ acc) := by
  induction l with
  | nil =>
    intro acc hacc w hw c hcw
    simp only [wordsAux] at hw
    by_cases h : acc = []
    · simp [h] at hw
    · simp only [if_neg h, List.mem_singleton] at hw
      subst hw
      have : c ∈ acc := List.mem_reverse.mp hcw
      exact ⟨hacc c this, Or.inr this⟩
  | cons d l' ih =>
    intro acc hacc w hw c hcw
    simp only [wordsAux] at hw
    by_cases hd : isWordChar d
    · simp only [hd, if_true] at hw
      have hacc' : ∀ x ∈ d :: acc, isWordChar x = true := by
        intro x hx
        rcases List.mem_cons.mp hx with h | h
        · subst h; exact hd
        · exact hacc x h
      rcases ih hacc' w hw c hcw with ⟨h1, h2⟩
      refine ⟨h1, ?_⟩
      rcases h2 with h | h
      · exact Or.inl (List.mem_cons_of_mem d h)
      · rcases List.mem_cons.mp h with h | h
        · exact Or.inl (h ▸ List.mem_cons_self d l')
        · exact Or.inr h
    · simp only [hd, Bool.false_eq_true, if_false] at hw
      by_cases haccnil : acc = []
      · simp only [if_pos haccnil] at hw
        rcases ih (by simp) w hw c hcw with ⟨h1, h2⟩
        refine ⟨h1, ?_⟩
        rcases h2 with h | h
        · exact Or.inl (List.mem_cons_of_mem d h)
        · simp at h
      · simp only [if_neg haccnil, List.mem_cons] at hw
        rcases hw with hw | hw
        · subst hw
          have : c ∈ acc := List.mem_reverse.mp hcw
          exact ⟨hacc c this, Or.inr this⟩
        · rcases ih (by simp) w hw c hcw with ⟨h1, h2⟩
          refine ⟨h1, ?_⟩
          rcases h2 with h | h
          · exact Or.inl (List.mem_cons_of_mem d h)
          · simp at h

theorem wordsAux_ne_nil {l : Str} :
    ∀ {acc : Str}, ∀ w ∈ wordsAux l acc, w ≠ [] := by
  induction l with
  | nil =>
    intro acc w hw
    simp only [wordsAux] at hw
    by_cases h : acc = []
    · simp [h] at hw
    · simp only [if_neg h, List.mem_singleton] at hw
      subst hw
      simpa using h
  | cons d l' ih =>
    intro acc w hw
    simp only [wordsAux] at hw
    by_cases hd : isWordChar d
    · simp only [hd, if_true] at hw
      exact ih w hw
    · simp only [hd, Bool.false_eq_true, if_false] at hw
      by_cases haccnil : acc = []
      · simp only [if_pos haccnil] at hw
        exact ih w hw
      · simp only [if_neg haccnil, List.mem_cons] at hw
        rcases hw with hw | hw
        · subst hw; simpa using haccnil
        · exact ih w hw

theorem space_not_word {c : Char} (h : isSpace c = true) :
    isWordChar c = false := by
  simp only [isSpace, Bool.or_eq_true, decide_eq_true_eq] at h
  rcases h with ((((h | h) | h) | h) | h) | h <;> subst h <;> decide

theorem rdrop_decomp (p : Char → Bool) (l : Str) :
    ∃ suf, l = rdrop p l ++ suf ∧ ∀ c ∈ suf, p c = true := by
  refine ⟨(l.reverse.takeWhile p).reverse, ?_, ?_⟩
  · rw [rdrop]
    rw [← List.reverse_append, List.takeWhile_append_dropWhile,
      List.reverse_reverse]
  · intro c hc
    exact List.mem_takeWhile_imp (List.mem_reverse.mp hc)

theorem words_stripAll (s : Str) : wordsOf (stripAll s) = wordsOf s := by
  obtain ⟨suf2, h2eq, h2p⟩ := rdrop_decomp (fun c => c = ';') (pyStrip s)
  obtain ⟨suf1, h1eq, h1p⟩ := rdrop_decomp isSpace (s.dropWhile isSpace)
  have hsuf1 : ∀ c ∈ suf1, isWordChar c = false :=
    fun c hc => space_not_word (h1p c hc)
  have hsuf2 : ∀ c ∈ suf2, isWordChar c = false := by
    intro c hc
    have : c = ';' := by simpa using h2p c hc
    subst this
    decide
  have hpre : ∀ c ∈ s.takeWhile isSpace, isWordChar c = false :=
    fun c hc => space_not_word (List.mem_takeWhile_imp hc)
  have step1 : wordsOf s = wordsOf (s.dropWhile isSpace) := by
    conv_lhs => rw [← List.takeWhile_append_dropWhile isSpace s]
    exact wordsAux_prefix_nonword hpre _
  have step2 : wordsOf (s.dropWhile isSpace) = wordsOf (pyStrip s) := by
    conv_lhs => rw [h1eq]
    exact wordsAux_append_nonword hsuf1 _ _
  have step3 : wordsOf (pyStrip s) = wordsOf (stripAll s) := by
    conv_lhs => rw [h2eq]
    exact wordsAux_append_nonword hsuf2 _ _
  rw [step1, step2, ← step3]

theorem is_write_query_stripAll (s : Str) :
    is_write_query (stripAll s) = is_write_query s := by
  simp only [is_write_query, words_stripAll]

/-- C1: for every input string containing one of the write/DDL keywords as a
whole word (case-insensitively, which is exactly is_write_query), and for
every configuration and every parser, enforce_sql_safety fails with the
write-rejection SQLSafetyError; the guard fires before parsing, so the parser
is universally quantified. -/
theorem c1_write_guard (parse : Str → Option ParsedQuery)
    (cfg : SQLSafetyConfig) (s : Str) (h : is_write_query s = true) :
    enforce_sql_safety parse s cfg = .error .writeNotAllowed := by
  have hw : is_write_query (stripAll s) = true := by
    rw [is_write_query_stripAll]; exact h
  have hne : stripAll s ≠ [] := by
    intro h0
    rw [h0] at hw
    simp [is_write_query, wordsOf, wordsAux] at hw
  simp only [enforce_sql_safety]
  rw [if_neg hne, if_pos hw]

/-- Witness for C1 at the concrete input of the spec example. -/
theorem c1_write_guard_witness :
    is_write_query (cs ("DROP TABLE clients")) = true ∧
      enforce_sql_safety parseNone (cs ("DROP TABLE clients"))
        defaultSafetyConfig = .error .writeNotAllowed :=
  ⟨by decide,
   c1_write_guard parseNone defaultSafetyConfig (cs ("DROP TABLE clients"))
     (by decide)⟩

/-- C2: a parsed SELECT referencing a table outside the allow-list (compared
case-insensitively on unqualified names) is rejected with a SQLSafetyError
naming exactly the disallowed tables, and a SELECT referencing only allowed
tables passes this check (and every later one, so enforcement succeeds). -/
theorem c2_table_allowlist (parse : Str → Option ParsedQuery)
    (cfg : SQLSafetyConfig) (s : Str) (pq : ParsedQuery)
    (h0 : stripAll s ≠ [])
    (h1 : is_write_query (stripAll s) = false)
    (h2 : parse (stripAll s) = some pq)
    (h3 : pq.isSelectLike = true) :
    ((extract_table_names pq).filter
        (fun t =>
          decide (¬ t ∈ cfg.allowed_tables.map (List.map Char.toLower))) ≠ []
      → enforce_sql_safety parse s cfg =
          .error (.disallowedTables ((extract_table_names pq).filter
            (fun t =>
              decide (¬ t ∈ cfg.allowed_tables.map (List.map Char.toLower)))))
        ∧ ∀ d ∈ (extract_table_names pq).filter
            (fun t =>
              decide (¬ t ∈ cfg.allowed_tables.map (List.map Char.toLower))),
            d ∈ extract_table_names pq
            ∧ d ∉ cfg.allowed_tables.map (List.map Char.toLower))
    ∧ ((∀ t ∈ extract_table_names pq,
          t ∈ cfg.allowed_tables.map (List.map Char.toLower)) →
        ∃ out, enforce_sql_safety parse s cfg = .ok out) := by
  have h1' : ¬ is_write_query (stripAll s) = true := by simp [h1]
  have h3' : ¬ pq.isSelectLike = false := by simp [h3]
  simp only [enforce_sql_safety]
  rw [if_neg h0, if_neg h1', h2]
  simp only []
  rw [if_neg h3']
  constructor
  · intro hne
    rw [if_neg hne]
    refine ⟨rfl, ?_⟩
    intro d hd
    have hm := List.mem_filter.mp hd
    refine ⟨hm.1, ?_⟩
    have := hm.2
    simpa using this
  · intro hall
    have hnil : (extract_table_names pq).filter
        (fun t =>
          decide (¬ t ∈ cfg.allowed_tables.map (List.map Char.toLower))) = [] := by
      rw [List.filter_eq_nil_iff]
      intro a ha
      simp [hall a ha]
    rw [if_pos hnil]
    exact ⟨_, rfl⟩

/-- Witness for C2: a SELECT over the table secrets is rejected naming it. -/
theorem c2_table_allowlist_witness :
    enforce_sql_safety parseSecrets (cs ("SELECT * FROM secrets"))
        defaultSafetyConfig = .error (.disallowedTables [cs ("secrets")]) :=
  ((c2_table_allowlist parseSecrets defaultSafetyConfig
      (cs ("SELECT * FROM secrets")) ⟨true, [cs ("secrets")], false, false⟩
      (by decide) (by decide) (by decide) rfl).1 (by decide)).1

theorem head?_dropWhile_not (p : Char → Bool) (m : Str) :
    ∀ c, (m.dropWhile p).head? = some c → p c = false := by
  induction m with
  | nil => intro c h; simp at h
  | cons d m' ih =>
    intro c h
    rw [List.dropWhile_cons] at h
    by_cases hd : p d = true
    · rw [if_pos hd] at h
      exact ih c h
    · rw [if_neg hd] at h
      simp only [List.head?_cons, Option.some.injEq] at h
      subst h
      simpa using hd

theorem rdrop_getLast (p : Char → Bool) (l : Str) :
    ∀ c, (rdrop p l).getLast? = some c → p c = false := by
  intro c h
  rw [rdrop, List.getLast?_reverse] at h
  exact head?_dropWhile_not p l.reverse c h

theorem rdrop_head? (p : Char → Bool) (l : Str) :
    ∀ c, (rdrop p l).head? = some c → l.head? = some c := by
  intro c h
  obtain ⟨suf, heq, _⟩ := rdrop_decomp p l
  cases hr : rdrop p l with
  | nil => rw [hr] at h; simp at h
  | cons d m =>
    rw [hr] at h
    simp only [List.head?_cons, Option.some.injEq] at h
    subst h
    rw [heq, hr]
    rfl

theorem getLast?_append_right {l l' : Str} {x : Char}
    (h : l'.getLast? = some x) : (l ++ l').getLast? = some x := by
  rw [List.getLast?_append, h]
  rfl

theorem rdrop_append_last {p : Char → Bool} {c : Char} (hc : p c = false)
    (l : Str) : rdrop p (l ++ [c]) = l ++ [c] := by
  rw [rdrop, List.reverse_append]
  simp only [List.reverse_cons, List.reverse_nil, List.nil_append,
    List.singleton_append, List.dropWhile_cons, hc, Bool.false_eq_true,
    if_false]
  rw [List.reverse_reverse]

theorem rdrop_concat_pos {p : Char → Bool} {c d : Char} {l : Str}
    (hc : p c = true) (hl : l.getLast? = some d) (hd : p d = false) :
    rdrop p (l ++ [c]) = l := by
  rw [rdrop, List.reverse_append]
  simp only [List.reverse_cons, List.reverse_nil, List.nil_append,
    List.singleton_append, List.dropWhile_cons, hc, if_true]
  have hrev : l.reverse.head? = some d := by
    rw [List.head?_reverse]
    exact hl
  cases hr : l.reverse with
  | nil => rw [hr] at hrev; simp at hrev
  | cons e m =>
    rw [hr] at hrev
    simp only [List.head?_cons, Option.some.injEq] at hrev
    subst hrev
    rw [List.dropWhile_cons, hd]
    simp only [Bool.false_eq_true, if_false]
    rw [← hr, List.reverse_reverse]

/-- Character facts about the ten decimal digits, used wherever rendered
numbers are appended into SQL or prose. -/
theorem digit_facts {c : Char} (hc : c ∈ cs ("0123456789")) :
    c ≠ ';' ∧ isSpace c = false ∧ isWordChar c = true ∧ c ≠ ':'
      ∧ Char.toUpper c = c := by
  have hc' : c ∈ ['0', '1', '2', '3', '4', '5', '6', '7', '8', '9'] := hc
  fin_cases hc' <;> decide

theorem natDigitsAux_congr :
    ∀ f1 f2 n, n < f1 → n < f2 → natDigitsAux f1 n = natDigitsAux f2 n := by
  intro f1
  induction f1 with
  | zero => intro f2 n h1; omega
  | succ f1 ih =>
    intro f2 n h1 h2
    cases f2 with
    | zero => omega
    | succ f2 =>
      simp only [natDigitsAux]
      by_cases h : n < 10
      · rw [if_pos h, if_pos h]
      · rw [if_neg h, if_neg h]
        have hd : n / 10 < n := Nat.div_lt_self (by omega) (by omega)
        rw [ih f2 (n / 10) (by omega) (by omega)]

theorem natDigits_eq (n : Nat) :
    natDigits n = if n < 10 then [Nat.digitChar n]
      else natDigits (n / 10) ++ [Nat.digitChar (n % 10)] := by
  rw [natDigits]
  simp only [natDigitsAux]
  by_cases h : n < 10
  · rw [if_pos h, if_pos h]
  · rw [if_neg h, if_neg h]
    have hd : n / 10 < n := Nat.div_lt_self (by omega) (by omega)
    rw [natDigits, natDigitsAux_congr n (n / 10 + 1) (n / 10) (by omega) (by omega)]

theorem natDigits_chars (n : Nat) : ∀ c ∈ natDigits n, c ∈ cs ("0123456789") := by
  induction n using Nat.strong_induction_on with
  | _ n ih =>
    intro c hc
    rw [natDigits_eq] at hc
    by_cases h : n < 10
    · rw [if_pos h] at hc
      simp only [List.mem_singleton] at hc
      subst hc
      interval_cases n <;> decide
    · rw [if_neg h] at hc
      rcases List.mem_append.mp hc with hm | hm
      · exact ih (n / 10) (Nat.div_lt_self (by omega) (by omega)) c hm
      · simp only [List.mem_singleton] at hm
        subst hm
        have h10 : n % 10 < 10 := Nat.mod_lt n (by omega)
        set k := n % 10 with hk
        interval_cases k <;> decide

theorem natDigits_ne_nil (n : Nat) : natDigits n ≠ [] := by
  rw [natDigits_eq]
  by_cases h : n < 10
  · rw [if_pos h]; simp
  · rw [if_neg h]; simp

theorem natDigits_getLast (n : Nat) :
    ∃ c, (natDigits n).getLast? = some c ∧ c ∈ cs ("0123456789") := by
  cases hg : (natDigits n).getLast? with
  | none =>
    exact absurd (List.getLast?_eq_none_iff.mp hg) (natDigits_ne_nil n)
  | some c =>
    refine ⟨c, rfl, ?_⟩
    have : c ∈ natDigits n := List.mem_of_mem_getLast? hg
    exact natDigits_chars n c this

theorem intStr_getLast (i : Int) :
    ∃ c, (intStr i).getLast? = some c ∧ c ∈ cs ("0123456789") := by
  rw [intStr]
  by_cases h : i < 0
  · rw [if_pos h]
    obtain ⟨c, hc, hd⟩ := natDigits_getLast (-i).toNat
    refine ⟨c, ?_, hd⟩
    rw [show ('-' :: natDigits (-i).toNat) = ['-'] ++ natDigits (-i).toNat from rfl]
    exact getLast?_append_right hc
  · rw [if_neg h]
    exact natDigits_getLast i.toNat

theorem intStr_chars (i : Int) :
    ∀ c ∈ intStr i, c ∈ '-' :: cs ("0123456789") := by
  intro c hc
  rw [intStr] at hc
  by_cases h : i < 0
  · rw [if_pos h] at hc
    rcases List.mem_cons.mp hc with hm | hm
    · exact hm ▸ List.mem_cons_self _ _
    · exact List.mem_cons_of_mem _ (natDigits_chars _ c hm)
  · rw [if_neg h] at hc
    exact List.mem_cons_of_mem _ (natDigits_chars _ c hc)

theorem stripAll_head?_not_space {s : Str} {c : Char}
    (h : (stripAll s).head? = some c) : isSpace c = false := by
  have h1 : (pyStrip s).head? = some c := rdrop_head? _ _ c h
  have h2 : (rdrop isSpace (s.dropWhile isSpace)).head? = some c := h1
  have h3 : (s.dropWhile isSpace).head? = some c := rdrop_head? _ _ c h2
  exact head?_dropWhile_not isSpace s c h3

theorem stripAll_getLast?_not_semi {s : Str} {c : Char}
    (h : (stripAll s).getLast? = some c) : c ≠ ';' := by
  have := rdrop_getLast (fun c => c = ';') (pyStrip s) c h
  simpa using this

/-- C4: on every accepted input, when the parsed query is non-aggregate, the
config requires a limit and no LIMIT clause is present, the output is the
trimmed terminator-stripped input with a LIMIT clause appended; otherwise the
output is that input textually untouched; in both cases followed by exactly
one trailing terminator. -/
theorem c4_limit_rewrite (parse : Str → Option ParsedQuery)
    (cfg : SQLSafetyConfig) (s out : Str)
    (h : enforce_sql_safety parse s cfg = .ok out) :
    ∃ pq, parse (stripAll s) = some pq
      ∧ ((cfg.require_limit_for_non_aggregate && !pq.isAggregate
            && !pq.hasLimit) = true →
          out = stripAll s ++ cs (" LIMIT ") ++ intStr cfg.default_limit
            ++ [';'])
      ∧ ((cfg.require_limit_for_non_aggregate && !pq.isAggregate
            && !pq.hasLimit) = false →
          out = stripAll s ++ [';'])
      ∧ out.getLast? = some ';'
      ∧ ¬ out.dropLast.getLast? = some ';' := by
  simp only [enforce_sql_safety] at h
  by_cases h0 : stripAll s = []
  · rw [if_pos h0] at h; simp at h
  rw [if_neg h0] at h
  by_cases hw : is_write_query (stripAll s) = true
  · rw [if_pos hw] at h; simp at h
  rw [if_neg hw] at h
  cases hp : parse (stripAll s) with
  | none => rw [hp] at h; simp at h
  | some pq =>
    rw [hp] at h
    simp only [] at h
    by_cases hsel : pq.isSelectLike = false
    · rw [if_pos hsel] at h; simp at h
    rw [if_neg hsel] at h
    by_cases hnil : (extract_table_names pq).filter
        (fun t =>
          decide (¬ t ∈ cfg.allowed_tables.map (List.map Char.toLower))) = []
    swap
    · rw [if_neg hnil] at h; simp at h
    rw [if_pos hnil] at h
    refine ⟨pq, rfl, ?_⟩
    cases hcnd : (cfg.require_limit_for_non_aggregate && !pq.isAggregate
        && !pq.hasLimit) with
    | true =>
      rw [hcnd, if_pos rfl] at h
      injection h with hout
      subst hout
      refine ⟨fun _ => rfl, ?_, List.getLast?_concat _, ?_⟩
      · intro hf
        simp at hf
      rw [List.dropLast_concat]
      obtain ⟨c, hcl, hcd⟩ := intStr_getLast cfg.default_limit
      rw [getLast?_append_right hcl]
      intro hbad
      simp only [Option.some.injEq] at hbad
      exact (digit_facts hcd).1 hbad
    | false =>
      rw [hcnd, if_neg (by simp)] at h
      injection h with hout
      subst hout
      refine ⟨?_, fun _ => rfl, List.getLast?_concat _, ?_⟩
      · intro hf
        simp at hf
      rw [List.dropLast_concat]
      intro hbad
      exact stripAll_getLast?_not_semi hbad rfl

/-- Witness for C4: the default config appends LIMIT 50 and one terminator to
a plain SELECT over clients. -/
theorem c4_limit_rewrite_witness :
    enforce_sql_safety parseClients (cs ("SELECT * FROM clients"))
        defaultSafetyConfig = .ok (cs ("SELECT * FROM clients LIMIT 50;"))
    ∧ (cs ("SELECT * FROM clients LIMIT 50;")).getLast? = some ';'
    ∧ ¬ (cs ("SELECT * FROM clients LIMIT 50;")).dropLast.getLast?
        = some ';' := by
  have h : enforce_sql_safety parseClients (cs ("SELECT * FROM clients"))
      defaultSafetyConfig = .ok (cs ("SELECT * FROM clients LIMIT 50;")) := by
    decide
  obtain ⟨pq, _, _, _, h4, h5⟩ :=
    c4_limit_rewrite parseClients defaultSafetyConfig
      (cs ("SELECT * FROM clients")) (cs ("SELECT * FROM clients LIMIT 50;")) h
  exact ⟨h, h4, h5⟩

theorem not_mem_writeKeywords_of_digit_head {c : Char}
    (hc : c ∈ cs ("0123456789")) (rest : Str) :
    writeKeywords.contains (c :: rest) = false := by
  have hc' : c ∈ ['0', '1', '2', '3', '4', '5', '6', '7', '8', '9'] := hc
  have hwk : writeKeywords =
      [['I', 'N', 'S', 'E', 'R', 'T'], ['U', 'P', 'D', 'A', 'T', 'E'],
       ['D', 'E', 'L', 'E', 'T', 'E'], ['D', 'R', 'O', 'P'],
       ['A', 'L', 'T', 'E', 'R'], ['T', 'R', 'U', 'N', 'C', 'A', 'T', 'E'],
       ['C', 'R', 'E', 'A', 'T', 'E'], ['R', 'E', 'P', 'L', 'A', 'C', 'E'],
       ['G', 'R', 'A', 'N', 'T'], ['R', 'E', 'V', 'O', 'K', 'E']] := rfl
  rw [hwk]
  fin_cases hc' <;> simp

theorem digits_word_not_keyword {w : Str} (hw : w ≠ [])
    (hd : ∀ c ∈ w, c ∈ cs ("0123456789")) :
    writeKeywords.contains (w.map Char.toUpper) = false := by
  cases w with
  | nil => exact absurd rfl hw
  | cons c w' =>
    have hc : c ∈ cs ("0123456789") := hd c (List.mem_cons_self _ _)
    have hcu : Char.toUpper c = c := (digit_facts hc).2.2.2.2
    rw [List.map_cons, hcu]
    exact not_mem_writeKeywords_of_digit_head hc _

theorem is_write_append_limit {t : Str} (ht : is_write_query t = false)
    (d : Int) :
    is_write_query (t ++ cs (" LIMIT ") ++ intStr d) = false := by
  have hshape : t ++ cs (" LIMIT ") ++ intStr d
      = t ++ ' ' :: (cs ("LIMIT") ++ ' ' :: intStr d) := by
    rw [List.append_assoc]
    exact congrArg (fun x => t ++ x) (by rfl)
  rw [hshape]
  simp only [is_write_query, wordsOf] at ht ⊢
  rw [wordsAux_break (by decide : isWordChar ' ' = false) t _ [],
    wordsAux_break (by decide : isWordChar ' ' = false) (cs ("LIMIT"))
      (intStr d) []]
  simp only [List.any_append, ht, Bool.false_or]
  have h1 : (wordsAux (cs ("LIMIT")) []).any
      (fun w => writeKeywords.contains (w.map Char.toUpper)) = false := by
    decide
  rw [h1]
  simp only [Bool.false_or]
  rw [List.any_eq_false]
  intro w hwm
  have hne := wordsAux_ne_nil w hwm
  have hch := @words_chars (intStr d) [] (by simp) w hwm
  have hdg : ∀ c ∈ w, c ∈ cs ("0123456789") := by
    intro c hcw
    obtain ⟨hword, hmem⟩ := hch c hcw
    rcases hmem with hmem | hmem
    · rcases List.mem_cons.mp (intStr_chars d c hmem) with hm | hm
      · subst hm
        exact absurd hword (by decide)
      · exact hm
    · simp at hmem
  simp only [digits_word_not_keyword hne hdg]
  simp

theorem stripAll_concat_semi {t : Str} {c0 : Char} (hhead : t.head? = some c0)
    (hsp : isSpace c0 = false) {d : Char} (hlast : t.getLast? = some d)
    (hdns : d ≠ ';') : stripAll (t ++ [';']) = t := by
  rw [stripAll, pyStrip]
  have h1 : (t ++ [';']).dropWhile isSpace = t ++ [';'] := by
    cases t with
    | nil => simp at hhead
    | cons e t' =>
      simp only [List.head?_cons, Option.some.injEq] at hhead
      subst hhead
      rw [List.cons_append, List.dropWhile_cons, hsp]
      simp
  rw [h1]
  have h2 : rdrop isSpace (t ++ [';']) = t ++ [';'] :=
    rdrop_append_last (by decide) _
  rw [h2]
  exact rdrop_concat_pos (by decide) hlast (by simp [hdns])

theorem enforce_ok_build (parse : Str → Option ParsedQuery)
    (cfg : SQLSafetyConfig) (s : Str) (pq : ParsedQuery)
    (h0 : stripAll s ≠ [])
    (h1 : is_write_query (stripAll s) = false)
    (h2 : parse (stripAll s) = some pq)
    (h3 : pq.isSelectLike = true)
    (h4 : (extract_table_names pq).filter
        (fun t =>
          decide (¬ t ∈ cfg.allowed_tables.map (List.map Char.toLower)))
        = []) :
    enforce_sql_safety parse s cfg =
      .ok ((if (cfg.require_limit_for_non_aggregate && !pq.isAggregate
            && !pq.hasLimit) = true
          then stripAll s ++ cs (" LIMIT ") ++ intStr cfg.default_limit
          else stripAll s) ++ [';']) := by
  simp only [enforce_sql_safety]
  rw [if_neg h0, if_neg (by simp [h1]), h2]
  simp only []
  rw [if_neg (by simp [h3]), if_pos h4]

theorem enforce_ok_inversion (parse : Str → Option ParsedQuery)
    (cfg : SQLSafetyConfig) (s out : Str)
    (h : enforce_sql_safety parse s cfg = .ok out) :
    stripAll s ≠ [] ∧ is_write_query (stripAll s) = false ∧
      ∃ pq, parse (stripAll s) = some pq ∧ pq.isSelectLike = true
        ∧ (extract_table_names pq).filter
            (fun t =>
              decide (¬ t ∈ cfg.allowed_tables.map (List.map Char.toLower)))
            = []
        ∧ out = (if (cfg.require_limit_for_non_aggregate && !pq.isAggregate
              && !pq.hasLimit) = true
            then stripAll s ++ cs (" LIMIT ") ++ intStr cfg.default_limit
            else stripAll s) ++ [';'] := by
  simp only [enforce_sql_safety] at h
  by_cases h0 : stripAll s = []
  · rw [if_pos h0] at h; simp at h
  rw [if_neg h0] at h
  by_cases hw : is_write_query (stripAll s) = true
  · rw [if_pos hw] at h; simp at h
  rw [if_neg hw] at h
  cases hp : parse (stripAll s) with
  | none => rw [hp] at h; simp at h
  | some pq =>
    rw [hp] at h
    simp only [] at h
    by_cases hsel : pq.isSelectLike = false
    · rw [if_pos hsel] at h; simp at h
    rw [if_neg hsel] at h
    by_cases hnil : (extract_table_names pq).filter
        (fun t =>
          decide (¬ t ∈ cfg.allowed_tables.map (List.map Char.toLower))) = []
    swap
    · rw [if_neg hnil] at h; simp at h
    rw [if_pos hnil] at h
    injection h with hout
    exact ⟨h0, by simpa using hw, pq, rfl, by simpa using hsel, hnil,
      hout.symm⟩

/-- C6: enforce_sql_safety is idempotent on its own output — on every accepted
input the returned string is accepted again and returned unchanged (hence same
table set, same aggregate classification, no duplicate LIMIT).  The hrw
hypothesis states the assumed coherence of the external parser: appending a
LIMIT clause to a parsed limitless query re-parses with the same select form,
tables and aggregate classification, and with the limit now present. -/
theorem c6_idempotent (parse : Str → Option ParsedQuery)
    (cfg : SQLSafetyConfig) (s out : Str)
    (hrw : ∀ t pq n, parse t = some pq → pq.hasLimit = false →
        ∃ pq', parse (t ++ cs (" LIMIT ") ++ intStr n) = some pq'
          ∧ pq'.isSelectLike = pq.isSelectLike ∧ pq'.tables = pq.tables
          ∧ pq'.isAggregate = pq.isAggregate ∧ pq'.hasLimit = true)
    (h : enforce_sql_safety parse s cfg = .ok out) :
    enforce_sql_safety parse out cfg = .ok out := by
  obtain ⟨h0, hw, pq, hp, hsel, hnil, hout⟩ :=
    enforce_ok_inversion parse cfg s out h
  obtain ⟨c0, hc0⟩ : ∃ c0, (stripAll s).head? = some c0 := by
    cases hh : (stripAll s).head? with
    | none => exact absurd (List.head?_eq_none_iff.mp hh) h0
    | some c => exact ⟨c, rfl⟩
  have hc0sp := stripAll_head?_not_space hc0
  obtain ⟨dl, hdl⟩ : ∃ dl, (stripAll s).getLast? = some dl := by
    cases hh : (stripAll s).getLast? with
    | none => exact absurd (List.getLast?_eq_none_iff.mp hh) h0
    | some c => exact ⟨c, rfl⟩
  have hdlns := stripAll_getLast?_not_semi hdl
  cases hcnd : (cfg.require_limit_for_non_aggregate && !pq.isAggregate
      && !pq.hasLimit) with
  | false =>
    rw [hcnd] at hout
    simp only [Bool.false_eq_true, if_false] at hout
    subst hout
    have hst : stripAll (stripAll s ++ [';']) = stripAll s :=
      stripAll_concat_semi hc0 hc0sp hdl hdlns
    have hb := enforce_ok_build parse cfg (stripAll s ++ [';']) pq
      (by rw [hst]; exact h0) (by rw [hst]; exact hw) (by rw [hst]; exact hp)
      hsel hnil
    rw [hst, hcnd] at hb
    simpa using hb
  | true =>
    rw [hcnd, if_pos rfl] at hout
    subst hout
    have hlimf : pq.hasLimit = false := by
      have := (Bool.and_eq_true _ _).mp hcnd
      have h2 := this.2
      rwa [Bool.not_eq_true'] at h2
    obtain ⟨pq', hp', hsel', htab', hagg', hlim'⟩ :=
      hrw (stripAll s) pq cfg.default_limit hp hlimf
    obtain ⟨dc, hdc, hdcd⟩ := intStr_getLast cfg.default_limit
    have hXlast : (stripAll s ++ cs (" LIMIT ")
        ++ intStr cfg.default_limit).getLast? = some dc :=
      getLast?_append_right hdc
    cases hts : stripAll s with
    | nil => exact absurd hts h0
    | cons e t0 =>
      have he : e = c0 := by
        rw [hts] at hc0
        simpa using hc0
      subst he
      have hXhead : ((e :: t0) ++ cs (" LIMIT ")
          ++ intStr cfg.default_limit).head? = some e := by
        simp [List.cons_append]
      rw [hts] at hp' hw hXlast
      have hst : stripAll (((e :: t0) ++ cs (" LIMIT ")
          ++ intStr cfg.default_limit) ++ [';'])
          = (e :: t0) ++ cs (" LIMIT ") ++ intStr cfg.default_limit :=
        stripAll_concat_semi hXhead hc0sp hXlast ((digit_facts hdcd).1)
      have hwX : is_write_query ((e :: t0) ++ cs (" LIMIT ")
          ++ intStr cfg.default_limit) = false :=
        is_write_append_limit hw cfg.default_limit
      have hextract : extract_table_names pq' = extract_table_names pq := by
        rw [extract_table_names, extract_table_names, htab']
      have hb := enforce_ok_build parse cfg
        (((e :: t0) ++ cs (" LIMIT ") ++ intStr cfg.default_limit) ++ [';'])
        pq' (by rw [hst]; simp) (by rw [hst]; exact hwX)
        (by rw [hst]; exact hp') (by rw [hsel']; exact hsel)
        (by rw [hextract]; exact hnil)
      have hcnd2 : (cfg.require_limit_for_non_aggregate && !pq'.isAggregate
          && !pq'.hasLimit) = false := by
        rw [hlim']
        simp
      rw [hst, hcnd2] at hb
      simp only [Bool.false_eq_true, if_false] at hb
      exact hb

/-- Coherence of the witness parser for C6: appending a LIMIT clause makes the
textual hasLimit detection true while leaving the other facts fixed. -/
theorem parseW_coherent : ∀ t pq n, parseW t = some pq → pq.hasLimit = false →
    ∃ pq', parseW (t ++ cs (" LIMIT ") ++ intStr n) = some pq'
      ∧ pq'.isSelectLike = pq.isSelectLike ∧ pq'.tables = pq.tables
      ∧ pq'.isAggregate = pq.isAggregate ∧ pq'.hasLimit = true := by
  intro t pq n hp hlim
  refine ⟨⟨true, [cs ("clients")], false,
    containsStr (t ++ cs (" LIMIT ") ++ intStr n) (cs (" LIMIT "))⟩, rfl,
    ?_, ?_, ?_, ?_⟩
  · simp only [parseW, Option.some.injEq] at hp
    rw [← hp]
  · simp only [parseW, Option.some.injEq] at hp
    rw [← hp]
  · simp only [parseW, Option.some.injEq] at hp
    rw [← hp]
  · simp only [containsStr, decide_eq_true_eq]
    refine ⟨t, intStr n, ?_⟩
    rw [List.append_assoc]

/-- Witness for C6: re-applying the validator to its own output returns the
output unchanged. -/
theorem c6_idempotent_witness :
    enforce_sql_safety parseW (cs ("SELECT * FROM clients"))
        defaultSafetyConfig = .ok (cs ("SELECT * FROM clients LIMIT 50;"))
    ∧ enforce_sql_safety parseW (cs ("SELECT * FROM clients LIMIT 50;"))
        defaultSafetyConfig = .ok (cs ("SELECT * FROM clients LIMIT 50;")) :=
  ⟨by decide,
   c6_idempotent parseW defaultSafetyConfig (cs ("SELECT * FROM clients"))
     (cs ("SELECT * FROM clients LIMIT 50;")) parseW_coherent (by decide)⟩

/-- Counterexample to C5: when the response to the corrective re-prompt still
contains an unsupported number, synthesize returns it unchecked, so the final
narrative contains a numeric substring absent from the row data. -/
theorem c5_grounding_counterexample :
    (synthesize llmBad blobRows).2 = 2
    ∧ ¬ (∀ u ∈ numbersInText (synthesize llmBad blobRows).1,
          u ∈ numbersInText blobRows) := by
  constructor
  · decide
  · decide

/-- C5 (amended): a draft containing an unsupported number triggers exactly
one corrective re-prompt and the second response is returned as the final
narrative with no re-check (so at most two model calls are ever made); a
clean draft is returned after one call. -/
theorem c5_numeric_reprompt (llm : SynthLLM) (blob : Str) :
    ((synthesize llm blob).2 = 1 ∨ (synthesize llm blob).2 = 2)
    ∧ (extraNumbers llm blob = [] →
        synthesize llm blob = (pyStrip llm.draftResp, 1))
    ∧ (extraNumbers llm blob ≠ [] →
        synthesize llm blob = (pyStrip llm.fixResp, 2)) := by
  unfold synthesize
  by_cases h : extraNumbers llm blob = []
  · rw [if_pos h]
    exact ⟨Or.inl rfl, fun _ => rfl, fun hne => absurd h hne⟩
  · rw [if_neg h]
    exact ⟨Or.inr rfl, fun he => absurd he h, fun _ => rfl⟩

/-- Witness for C5 (amended): a grounded draft is returned after one call. -/
theorem c5_numeric_reprompt_witness :
    extraNumbers llmGood blobRows = []
    ∧ synthesize llmGood blobRows = (pyStrip llmGood.draftResp, 1) :=
  ⟨by decide, (c5_numeric_reprompt llmGood blobRows).2.1 (by decide)⟩

/-- C3: the orchestrated request flow performs at most one repair, repairs
only in freeform mode (a deterministic execution failure is immediately
fatal with zero repairs), and after a failed repair the second error is fatal
with exactly one repair and no further attempt. -/
theorem c3_repair_bound (route : RouterResult) (gen : FreeformResult)
    (repairf : Str → Str → FreeformResult)
    (runSql : Str → List (Str × PVal) → Except Str SQLRunResult)
    (synthNarr : Str → List Row → Str) :
    (chat route gen repairf runSql synthNarr).2 ≤ 1
    ∧ (∀ sp, route.action ≠ cs ("REFUSE") → route.action ≠ cs ("CLARIFY") →
        detSel route.plan = some sp →
        ∀ e, runSql sp.1 sp.2 = .error e →
          chat route gen repairf runSql synthNarr = (.failed e, 0))
    ∧ (route.action ≠ cs ("REFUSE") → route.action ≠ cs ("CLARIFY") →
        detSel route.plan = none →
        ∀ e, runSql gen.safe_sql [] = .error e →
          (chat route gen repairf runSql synthNarr).2 = 1
          ∧ ∀ e2, runSql (repairf gen.safe_sql e).safe_sql [] = .error e2 →
              chat route gen repairf runSql synthNarr = (.failed e2, 1)) := by
  refine ⟨?_, ?_, ?_⟩
  · unfold chat
    by_cases hr : route.action = cs ("REFUSE")
    · rw [if_pos hr]
      exact Nat.zero_le 1
    rw [if_neg hr]
    by_cases hc : route.action = cs ("CLARIFY")
    · rw [if_pos hc]
      exact Nat.zero_le 1
    rw [if_neg hc]
    cases hd : detSel route.plan with
    | some sp =>
      simp only []
      cases hrun : runSql sp.1 sp.2 with
      | ok run => exact Nat.zero_le 1
      | error e => exact Nat.zero_le 1
    | none =>
      simp only []
      cases hrun : runSql gen.safe_sql [] with
      | ok run => exact Nat.zero_le 1
      | error e =>
        simp only []
        cases hrun2 : runSql (repairf gen.safe_sql e).safe_sql [] with
        | ok run => exact Nat.le_refl 1
        | error e2 => exact Nat.le_refl 1
  · intro sp hne1 hne2 hsp e herr
    unfold chat
    rw [if_neg hne1, if_neg hne2, hsp]
    simp only []
    rw [herr]
  · intro hne1 hne2 hd e herr
    unfold chat
    rw [if_neg hne1, if_neg hne2, hd]
    simp only []
    rw [herr]
    simp only []
    constructor
    · cases hrun2 : runSql (repairf gen.safe_sql e).safe_sql [] with
      | ok run => rfl
      | error e2 => rfl
    · intro e2 herr2
      rw [herr2]

/-- Witness for C3: a freeform request whose execution and repaired execution
both fail surfaces the second error with exactly one repair. -/
theorem c3_repair_bound_witness :
    chat routeFF genFix repairFix runFailAll synthFix
      = (.failed (cs ("boom")), 1) :=
  ((c3_repair_bound routeFF genFix repairFix runFailAll synthFix).2.2
      (by decide) (by decide) (by decide) (cs ("boom")) rfl).2
    (cs ("boom")) rfl

/-- C10: a successful QUERY response carries the first fifty rows of the run
(an order-preserving prefix) while row_count reports the full number of rows
the query returned; run_sql itself keeps every fetched row, so row_count can
exceed the rows present in the response. -/
theorem c10_row_truncation (route : RouterResult) (gen : FreeformResult)
    (repairf : Str → Str → FreeformResult)
    (runSql : Str → List (Str × PVal) → Except Str SQLRunResult)
    (synthNarr : Str → List Row → Str) :
    (∀ sp run, route.action ≠ cs ("REFUSE") → route.action ≠ cs ("CLARIFY") →
        detSel route.plan = some sp → runSql sp.1 sp.2 = .ok run →
        chat route gen repairf runSql synthNarr
            = (.success (mkResponse (cs ("deterministic")) synthNarr run), 0)
          ∧ (mkResponse (cs ("deterministic")) synthNarr run).rows
              = run.rows.take 50
          ∧ (mkResponse (cs ("deterministic")) synthNarr run).rows
              <+: run.rows
          ∧ (mkResponse (cs ("deterministic")) synthNarr run).rows.length
              = min 50 run.rows.length
          ∧ (mkResponse (cs ("deterministic")) synthNarr run).row_count
              = run.rows.length)
    ∧ (∀ parse cfg db sql ps run,
        run_sql_model parse cfg db sql ps = .ok run →
          run.rows = db run.sql ∧ run.row_count = run.rows.length)
    ∧ (∃ resp, chat routeDet genFix repairFix runSixty synthFix
          = (.success resp, 0)
        ∧ resp.rows.length = 50 ∧ resp.row_count = 60) := by
  refine ⟨?_, ?_, ?_⟩
  · intro sp run hne1 hne2 hsp hok
    refine ⟨?_, rfl, List.take_prefix _ _, List.length_take _ _, rfl⟩
    unfold chat
    rw [if_neg hne1, if_neg hne2, hsp]
    simp only []
    rw [hok]
  · intro parse cfg db sql ps run h
    unfold run_sql_model at h
    cases he : enforce_sql_safety parse sql cfg with
    | error e => rw [he] at h; simp at h
    | ok safe =>
      rw [he] at h
      simp only [] at h
      injection h with hrun
      subst hrun
      exact ⟨rfl, rfl⟩
  · refine ⟨mkResponse (cs ("deterministic")) synthFix
      ⟨sqlListClients, [], List.replicate 60 [], 60⟩, ?_, by decide, by decide⟩
    unfold chat
    rw [if_neg (by decide), if_neg (by decide),
      (by decide : detSel routeDet.plan = some (sqlListClients, []))]
    simp only []
    rfl

/-- Witness for C10 at the sixty-row fixture: fifty rows in the response, a
row count of sixty. -/
theorem c10_row_truncation_witness :
    chat routeDet genFix repairFix runSixty synthFix
      = (.success (mkResponse (cs ("deterministic")) synthFix runRows60), 0)
    ∧ (mkResponse (cs ("deterministic")) synthFix runRows60).rows.length = 50
    ∧ (mkResponse (cs ("deterministic")) synthFix runRows60).row_count
        = 60 := by
  obtain ⟨h1, _, _, h4, h5⟩ :=
    (c10_row_truncation routeDet genFix repairFix runSixty synthFix).1
      (sqlListClients, []) runRows60 (by decide) (by decide) (by decide) rfl
  refine ⟨h1, ?_, ?_⟩
  · rw [h4]
    decide
  · rw [h5]
    decide

theorem build_sql_eq_listClients (p : QueryPlan) (h : p.intent = cs ("LIST_CLIENTS")) :
    build_sql p = some ⟨sqlListClients, []⟩ := by
  unfold build_sql
  rw [h]
  rfl

theorem build_sql_eq_clientsByCountry (p : QueryPlan) (h : p.intent = cs ("CLIENTS_BY_COUNTRY")) :
    build_sql p = some ⟨sqlClientsByCountry, [(cs ("country"), ov p.country)]⟩ := by
  unfold build_sql
  rw [h]
  rfl

theorem build_sql_eq_invoicesByMonth (p : QueryPlan) (h : p.intent = cs ("INVOICES_BY_MONTH")) :
    build_sql p = some ⟨sqlInvoicesByMonth, [(cs ("year"), oi p.year), (cs ("month"), oi p.month)]⟩ := by
  unfold build_sql
  rw [h]
  rfl

theorem build_sql_eq_invoicesByStatus (p : QueryPlan) (h : p.intent = cs ("INVOICES_BY_STATUS")) :
    build_sql p = some ⟨sqlInvoicesByStatus, [(cs ("status"), ov p.status)]⟩ := by
  unfold build_sql
  rw [h]
  rfl

theorem build_sql_eq_clientInvoices (p : QueryPlan) (h : p.intent = cs ("CLIENT_INVOICES")) :
    build_sql p = some ⟨sqlClientInvoices, [(cs ("client_name"), ov p.client_name)]⟩ := by
  unfold build_sql
  rw [h]
  rfl

theorem build_sql_eq_invoicesByClientAndMonth (p : QueryPlan) (h : p.intent = cs ("INVOICES_BY_CLIENT_AND_MONTH")) :
    build_sql p = some ⟨sqlInvoicesByClientAndMonth, [(cs ("client_name"), ov p.client_name), (cs ("year"), oi p.year), (cs ("month"), oi p.month)]⟩ := by
  unfold build_sql
  rw [h]
  rfl

theorem build_sql_eq_overdueInvoices (p : QueryPlan) (h : p.intent = cs ("OVERDUE_INVOICES_AS_OF_DATE")) :
    build_sql p = some ⟨sqlOverdueInvoices, [(cs ("as_of_date"), ov p.as_of_date)]⟩ := by
  unfold build_sql
  rw [h]
  rfl

theorem build_sql_eq_invoiceLineItems (p : QueryPlan) (h : p.intent = cs ("INVOICE_LINE_ITEMS")) :
    build_sql p = some ⟨sqlInvoiceLineItems, [(cs ("invoice_id"), oi p.invoice_id)]⟩ := by
  unfold build_sql
  rw [h]
  rfl

theorem build_sql_eq_lineItemCount (p : QueryPlan) (h : p.intent = cs ("LINE_ITEM_COUNT_BY_SERVICE")) :
    build_sql p = some ⟨sqlLineItemCountByService, []⟩ := by
  unfold build_sql
  rw [h]
  rfl

theorem build_sql_eq_clientTotalBilled (p : QueryPlan) (h : p.intent = cs ("CLIENT_TOTAL_BILLED_BY_YEAR")) :
    build_sql p = some ⟨sqlClientTotalBilledByYear, [(cs ("year"), oi p.year)]⟩ := by
  unfold build_sql
  rw [h]
  rfl

theorem build_sql_eq_topClientByYear (p : QueryPlan) (h : p.intent = cs ("TOP_CLIENT_BY_YEAR")) :
    build_sql p = some ⟨sqlTopClientByYear, [(cs ("year"), oi p.year)]⟩ := by
  unfold build_sql
  rw [h]
  rfl

theorem build_sql_eq_topServices (p : QueryPlan) (h : p.intent = cs ("TOP_SERVICES_BY_REVENUE")) :
    build_sql p = some ⟨sqlTopServicesA ++ intStr (safe_limit p.limit 3 1 50) ++ sqlTopServicesB, [(cs ("year"), oi p.year)]⟩ := by
  unfold build_sql
  rw [h]
  rfl

theorem build_sql_eq_revenueByCountry (p : QueryPlan) (h : p.intent = cs ("REVENUE_BY_COUNTRY")) :
    build_sql p = some ⟨sqlRevenueByCountry, [(cs ("year"), oi p.year)]⟩ := by
  unfold build_sql
  rw [h]
  rfl

theorem build_sql_eq_serviceClientTotals (p : QueryPlan) (h : p.intent = cs ("SERVICE_CLIENT_TOTALS")) :
    build_sql p = some ⟨sqlServiceClientTotals, [(cs ("service_name"), ov p.service_name), (cs ("year"), oi p.year)]⟩ := by
  unfold build_sql
  rw [h]
  rfl

theorem build_sql_eq_euH2 (p : QueryPlan) (h : p.intent = cs ("TOP_SERVICES_EU_H2")) :
    build_sql p = some ⟨euSqlOf (countriesUsed p.countries) (safe_limit p.limit 3 1 50), euParamsOf (countriesUsed p.countries) p.start_date p.end_date⟩ := by
  unfold build_sql
  rw [h]
  rfl

theorem build_sql_eq_none (p : QueryPlan)
    (h1 : p.intent ≠ cs ("LIST_CLIENTS"))
    (h2 : p.intent ≠ cs ("CLIENTS_BY_COUNTRY"))
    (h3 : p.intent ≠ cs ("INVOICES_BY_MONTH"))
    (h4 : p.intent ≠ cs ("INVOICES_BY_STATUS"))
    (h5 : p.intent ≠ cs ("CLIENT_INVOICES"))
    (h6 : p.intent ≠ cs ("INVOICES_BY_CLIENT_AND_MONTH"))
    (h7 : p.intent ≠ cs ("OVERDUE_INVOICES_AS_OF_DATE"))
    (h8 : p.intent ≠ cs ("INVOICE_LINE_ITEMS"))
    (h9 : p.intent ≠ cs ("LINE_ITEM_COUNT_BY_SERVICE"))
    (h10 : p.intent ≠ cs ("CLIENT_TOTAL_BILLED_BY_YEAR"))
    (h11 : p.intent ≠ cs ("TOP_CLIENT_BY_YEAR"))
    (h12 : p.intent ≠ cs ("TOP_SERVICES_BY_REVENUE"))
    (h13 : p.intent ≠ cs ("REVENUE_BY_COUNTRY"))
    (h14 : p.intent ≠ cs ("SERVICE_CLIENT_TOTALS"))
    (h15 : p.intent ≠ cs ("TOP_SERVICES_EU_H2")) :
    build_sql p = none := by
  unfold build_sql
  rw [if_neg h1, if_neg h2, if_neg h3, if_neg h4, if_neg h5, if_neg h6, if_neg h7, if_neg h8, if_neg h9, if_neg h10, if_neg h11, if_neg h12, if_neg h13, if_neg h14, if_neg h15]

theorem containsStr_append_left (a rest pat : Str)
    (h : containsStr a pat = true) : containsStr (a ++ rest) pat = true := by
  simp only [containsStr, decide_eq_true_eq] at h ⊢
  exact h.trans ⟨[], rest, by simp⟩

/-- C7: every revenue- or billed-total intent renders its total as the
tax-inclusive formula (quantity * unit_price) * (1 + tax_rate), inside SUM
for the aggregated intents (with li.-qualified columns in the joined
templates), aliased as the respective total column. -/
theorem c7_tax_formula (p : QueryPlan) (b : BuiltSQL)
    (hb : build_sql p = some b) :
    (p.intent = cs ("CLIENT_TOTAL_BILLED_BY_YEAR") →
      containsStr b.sql (cs ("SUM((li.quantity * li.unit_price) * (1 + li.tax_rate)) AS total_billed_including_tax")) = true)
    ∧ (p.intent = cs ("TOP_CLIENT_BY_YEAR") →
      containsStr b.sql (cs ("SUM((li.quantity * li.unit_price) * (1 + li.tax_rate)) AS total_billed_including_tax")) = true)
    ∧ (p.intent = cs ("TOP_SERVICES_BY_REVENUE") →
      containsStr b.sql (cs ("SUM((li.quantity * li.unit_price) * (1 + li.tax_rate)) AS total_revenue_including_tax")) = true)
    ∧ (p.intent = cs ("REVENUE_BY_COUNTRY") →
      containsStr b.sql (cs ("SUM((li.quantity * li.unit_price) * (1 + li.tax_rate)) AS total_billed_including_tax")) = true)
    ∧ (p.intent = cs ("SERVICE_CLIENT_TOTALS") →
      containsStr b.sql (cs ("SUM((li.quantity * li.unit_price) * (1 + li.tax_rate)) AS total_paid_including_tax")) = true)
    ∧ (p.intent = cs ("TOP_SERVICES_EU_H2") →
      containsStr b.sql (cs ("SUM((li.quantity * li.unit_price) * (1 + li.tax_rate)) AS total_revenue_including_tax")) = true)
    ∧ (p.intent = cs ("INVOICE_LINE_ITEMS") →
      containsStr b.sql (cs ("(quantity * unit_price) * (1 + tax_rate) AS line_total_including_tax")) = true) := by
  refine ⟨?_, ?_, ?_, ?_, ?_, ?_, ?_⟩
  · intro h
    rw [build_sql_eq_clientTotalBilled p h] at hb
    injection hb with hb
    subst hb
    show containsStr sqlClientTotalBilledByYear _ = true
    decide
  · intro h
    rw [build_sql_eq_topClientByYear p h] at hb
    injection hb with hb
    subst hb
    show containsStr sqlTopClientByYear _ = true
    decide
  · intro h
    rw [build_sql_eq_topServices p h] at hb
    injection hb with hb
    subst hb
    show containsStr (sqlTopServicesA
      ++ intStr (safe_limit p.limit 3 1 50) ++ sqlTopServicesB) _ = true
    rw [List.append_assoc]
    exact containsStr_append_left _ _ _ (by decide)
  · intro h
    rw [build_sql_eq_revenueByCountry p h] at hb
    injection hb with hb
    subst hb
    show containsStr sqlRevenueByCountry _ = true
    decide
  · intro h
    rw [build_sql_eq_serviceClientTotals p h] at hb
    injection hb with hb
    subst hb
    show containsStr sqlServiceClientTotals _ = true
    decide
  · intro h
    rw [build_sql_eq_euH2 p h] at hb
    injection hb with hb
    subst hb
    show containsStr (euSqlOf (countriesUsed p.countries)
      (safe_limit p.limit 3 1 50)) _ = true
    rw [euSqlOf, List.append_assoc, List.append_assoc, List.append_assoc]
    exact containsStr_append_left _ _ _ (by decide)
  · intro h
    rw [build_sql_eq_invoiceLineItems p h] at hb
    injection hb with hb
    subst hb
    show containsStr sqlInvoiceLineItems _ = true
    decide

/-- Witness for C7 at the per-client yearly totals intent. -/
theorem c7_tax_formula_witness :
    containsStr bCTB.sql (cs ("SUM((li.quantity * li.unit_price) * (1 + li.tax_rate)) AS total_billed_including_tax")) = true :=
  (c7_tax_formula pCTB bCTB (by decide)).1 rfl

theorem safe_limit_bounds (n : Option Int) :
    1 ≤ safe_limit n 3 1 50 ∧ safe_limit n 3 1 50 ≤ 50
      ∧ (n = none → safe_limit n 3 1 50 = 3) := by
  cases n with
  | none => exact ⟨by norm_num [safe_limit], by norm_num [safe_limit],
      fun _ => rfl⟩
  | some v =>
    refine ⟨?_, ?_, ?_⟩
    · simp only [safe_limit]
      omega
    · simp only [safe_limit]
      omega
    · intro hv
      cases hv

/-- Counterexample to C8: for a requested limit of 100, the value clamped to
the claimed range [1,200] would be 100, but the SQL inlines 50 (the actual
call-site bound), so the claim is false as stated. -/
theorem c8_clamp_counterexample :
    build_sql pTop100 = some bTop100
    ∧ safe_limit (some 100) 3 1 50 = 50
    ∧ max 1 (min 200 (100 : Int)) = 100
    ∧ containsStr bTop100.sql (cs ("LIMIT 100")) = false
    ∧ containsStr bTop100.sql (cs ("LIMIT 50")) = true := by
  refine ⟨by decide, by decide, by decide, by decide, by decide⟩

/-- C8 (amended): the limit inlined into TOP_SERVICES_BY_REVENUE and
TOP_SERVICES_EU_H2 is the plan's limit clamped server-side into [1,50]
(default 3 when the limit is absent) before substitution; the raw value is
never concatenated unclamped. -/
theorem c8_clamp_amended (p : QueryPlan) (b : BuiltSQL)
    (hb : build_sql p = some b) :
    (p.intent = cs ("TOP_SERVICES_BY_REVENUE") →
      b.sql = sqlTopServicesA ++ intStr (safe_limit p.limit 3 1 50)
          ++ sqlTopServicesB
      ∧ 1 ≤ safe_limit p.limit 3 1 50 ∧ safe_limit p.limit 3 1 50 ≤ 50
      ∧ (p.limit = none → safe_limit p.limit 3 1 50 = 3))
    ∧ (p.intent = cs ("TOP_SERVICES_EU_H2") →
      b.sql = euSqlA ++ euPlaceholders (countriesUsed p.countries).length
          ++ euSqlB ++ intStr (safe_limit p.limit 3 1 50) ++ euSqlC
      ∧ 1 ≤ safe_limit p.limit 3 1 50 ∧ safe_limit p.limit 3 1 50 ≤ 50
      ∧ (p.limit = none → safe_limit p.limit 3 1 50 = 3)) := by
  obtain ⟨hb1, hb2, hb3⟩ := safe_limit_bounds p.limit
  constructor
  · intro h
    rw [build_sql_eq_topServices p h] at hb
    injection hb with hb
    subst hb
    exact ⟨rfl, hb1, hb2, hb3⟩
  · intro h
    rw [build_sql_eq_euH2 p h] at hb
    injection hb with hb
    subst hb
    exact ⟨rfl, hb1, hb2, hb3⟩

/-- Witness for C8 (amended) at the limit-100 plan: the inlined value is the
clamp of 100 into [1,50]. -/
theorem c8_clamp_amended_witness :
    bTop100.sql = sqlTopServicesA ++ intStr (safe_limit pTop100.limit 3 1 50)
        ++ sqlTopServicesB
    ∧ 1 ≤ safe_limit pTop100.limit 3 1 50
    ∧ safe_limit pTop100.limit 3 1 50 ≤ 50
    ∧ (pTop100.limit = none → safe_limit pTop100.limit 3 1 50 = 3) :=
  (c8_clamp_amended pTop100 bTop100 (by decide)).1 rfl

theorem phScan_word_acc {w : Str} (h : ∀ c ∈ w, isWordChar c = true) :
    ∀ (b : Str) (acc : Str),
      phScan (w ++ b) (some acc) = phScan b (some (w.reverse ++ acc)) := by
  induction w with
  | nil => intro b acc; simp
  | cons c w' ih =>
    intro b acc
    have hc : isWordChar c = true := h c (List.mem_cons_self _ _)
    have hw' : ∀ x ∈ w', isWordChar x = true :=
      fun x hx => h x (List.mem_cons_of_mem c hx)
    simp only [List.cons_append, phScan, hc, if_true]
    show phScan (w' ++ b) (some (c :: acc))
      = phScan b (some ((c :: w').reverse ++ acc))
    rw [ih hw' b (c :: acc)]
    simp

theorem phScan_break {c : Char} (hc : isWordChar c = false) (hcol : c ≠ ':') :
    ∀ (a b : Str) (st : Option Str),
      phScan (a ++ c :: b) st = phScan a st ++ phScan b none := by
  intro a
  induction a with
  | nil =>
    intro b st
    cases st with
    | none =>
      simp only [List.nil_append, phScan, if_neg hcol]
    | some acc =>
      simp only [List.nil_append, phScan, hc, Bool.false_eq_true, if_false,
        if_neg hcol]
      by_cases hacc : acc = []
      · simp [hacc]
      · simp [hacc]
  | cons d a' ih =>
    intro b st
    cases st with
    | none =>
      simp only [List.cons_append, phScan]
      by_cases hd : d = ':'
      · simp only [if_pos hd]
        exact ih b (some [])
      · simp only [if_neg hd]
        exact ih b none
    | some acc =>
      simp only [List.cons_append, phScan]
      by_cases hdw : isWordChar d
      · simp only [hdw, if_true]
        exact ih b (some (d :: acc))
      · simp only [hdw, Bool.false_eq_true, if_false]
        by_cases hd : d = ':'
        · simp only [if_pos hd]
          by_cases hacc : acc = []
          · simp only [if_pos hacc]
            exact ih b (some [])
          · simp only [if_neg hacc]
            exact congrArg (fun x => List.reverse acc :: x) (ih b (some []))
        · simp only [if_neg hd]
          by_cases hacc : acc = []
          · simp only [if_pos hacc]
            exact ih b none
          · simp only [if_neg hacc]
            exact congrArg (fun x => List.reverse acc :: x) (ih b none)

theorem phScan_nocolon {l : Str} (h : ∀ x ∈ l, x ≠ ':') :
    ∀ b, phScan (l ++ b) none = phScan b none := by
  induction l with
  | nil => intro b; rfl
  | cons c l' ih =>
    intro b
    have hc : c ≠ ':' := h c (List.mem_cons_self _ _)
    have hl' : ∀ x ∈ l', x ≠ ':' := fun x hx => h x (List.mem_cons_of_mem c hx)
    simp only [List.cons_append, phScan, if_neg hc]
    exact ih hl' b

theorem phScan_nocolon_nil {l : Str} (h : ∀ x ∈ l, x ≠ ':') :
    phScan l none = [] := by
  have := phScan_nocolon h []
  simpa using this

theorem pcName_chars_word (k : Nat) :
    ∀ c ∈ ('c' :: natDigits k), isWordChar c = true := by
  intro c hc
  rcases List.mem_cons.mp hc with hm | hm
  · subst hm; decide
  · exact (digit_facts (natDigits_chars k c hm)).2.2.1

theorem phScan_pcName (k : Nat) {c : Char} (hcw : isWordChar c = false)
    (hcol : c ≠ ':') (b : Str) :
    phScan (pcName k ++ c :: b) none = cName k :: phScan b none := by
  have hshape : pcName k ++ c :: b = ':' :: (('c' :: natDigits k) ++ c :: b) :=
    rfl
  rw [hshape]
  show phScan (('c' :: natDigits k) ++ c :: b) (some []) = _
  rw [phScan_word_acc (pcName_chars_word k) (c :: b) []]
  simp only [phScan, hcw, Bool.false_eq_true, if_false, if_neg hcol]
  have hne : ('c' :: natDigits k).reverse ++ [] ≠ [] := by simp
  rw [if_neg hne]
  simp [cName]

theorem intercalate_cons₂ (sep x y : Str) (t : List Str) :
    List.intercalate sep (x :: y :: t)
      = x ++ sep ++ List.intercalate sep (y :: t) := by
  simp only [List.intercalate, List.intersperse_cons_cons, List.join_cons]
  simp [List.append_assoc]

theorem digitChar_toNat {n : Nat} (h : n < 10) :
    (Nat.digitChar n).toNat = 48 + n := by
  interval_cases n <;> decide

theorem natDigits_val : ∀ n a,
    (natDigits n).foldl (fun a c => 10 * a + (c.toNat - 48)) a
      = a * 10 ^ (natDigits n).length + n := by
  intro n
  induction n using Nat.strong_induction_on with
  | _ n ih =>
    intro a
    by_cases h : n < 10
    · rw [natDigits_eq, if_pos h]
      simp only [List.foldl_cons, List.foldl_nil, List.length_singleton,
        pow_one]
      rw [digitChar_toNat h]
      omega
    · rw [natDigits_eq, if_neg h]
      rw [List.foldl_append, List.length_append]
      simp only [List.foldl_cons, List.foldl_nil, List.length_singleton]
      rw [ih (n / 10) (Nat.div_lt_self (by omega) (by omega)) a]
      rw [digitChar_toNat (Nat.mod_lt n (by omega))]
      have hp : a * 10 ^ ((natDigits (n / 10)).length + 1)
          = a * 10 ^ (natDigits (n / 10)).length * 10 := by
        rw [pow_succ, mul_assoc]
      rw [hp]
      generalize a * 10 ^ (natDigits (n / 10)).length = X
      omega

theorem natDigits_inj {m n : Nat} (h : natDigits m = natDigits n) : m = n := by
  have hm := natDigits_val m 0
  have hn := natDigits_val n 0
  rw [h] at hm
  simp only [Nat.zero_mul, Nat.zero_add] at hm hn
  exact hm.symm.trans hn

theorem cName_inj {a b : Nat} (h : cName a = cName b) : a = b := by
  rw [cName, cName] at h
  injection h with _ h2
  exact natDigits_inj h2

theorem phScan_join : ∀ (n k : Nat) (rest : Str),
    phScan (List.intercalate (cs (", ")) ((List.range' k n).map pcName)
        ++ ')' :: rest) none
      = (List.range' k n).map cName ++ phScan rest none := by
  intro n
  induction n with
  | zero =>
    intro k rest
    have h0 : List.range' k 0 = [] := rfl
    rw [h0]
    simp [phScan, List.intercalate]
  | succ m ih =>
    intro k rest
    rw [List.range'_succ, List.map_cons, List.map_cons]
    cases hm : (List.range' (k + 1) m).map pcName with
    | nil =>
      have hr : List.range' (k + 1) m = [] := List.map_eq_nil.mp hm
      rw [hr]
      have hsingle : List.intercalate (cs (", ")) [pcName k] = pcName k := by
        simp [List.intercalate]
      rw [hsingle, phScan_pcName k (by decide) (by decide) rest]
      simp
    | cons q qs =>
      rw [intercalate_cons₂]
      have hsh : (pcName k ++ cs (", ")
            ++ List.intercalate (cs (", ")) (q :: qs)) ++ ')' :: rest
          = pcName k ++ ',' :: (' '
              :: (List.intercalate (cs (", ")) (q :: qs) ++ ')' :: rest)) := by
        simp only [List.append_assoc]
        exact congrArg (fun x => pcName k ++ x) rfl
      rw [hsh, phScan_pcName k (by decide) (by decide)]
      have hsp : phScan (' '
            :: (List.intercalate (cs (", ")) (q :: qs) ++ ')' :: rest)) none
          = phScan (List.intercalate (cs (", ")) (q :: qs)
              ++ ')' :: rest) none := by
        simp [phScan]
      rw [hsp, ← hm, ih (k + 1) rest]
      rfl

theorem enumFrom_lookup : ∀ (cl : List Str) (k i : Nat) (hi : i < cl.length)
    (tail : List (Str × PVal)),
    assocLookup (cName (k + i))
        ((List.enumFrom k cl).map (fun ic => (cName ic.1, PVal.vStr ic.2))
          ++ tail)
      = some (PVal.vStr (cl.get ⟨i, hi⟩)) := by
  intro cl
  induction cl with
  | nil =>
    intro k i hi tail
    simp at hi
  | cons x xs ih =>
    intro k i hi tail
    rw [List.enumFrom_cons, List.map_cons, List.cons_append]
    cases i with
    | zero =>
      show (if cName k = cName (k + 0) then some (PVal.vStr x) else _) = _
      rw [if_pos (by rw [Nat.add_zero])]
      rfl
    | succ j =>
      show (if cName k = cName (k + (j + 1)) then some (PVal.vStr x) else _)
        = _
      rw [if_neg ?_]
      · have hj : j < xs.length := Nat.lt_of_succ_lt_succ hi
        have := ih (k + 1) j hj tail
        rw [show k + (j + 1) = k + 1 + j from by omega]
        exact this
      · intro hkk
        have := cName_inj hkk
        omega

theorem euParams_keys (cl : List Str) (sd ed : Option Str) :
    (euParamsOf cl sd ed).map Prod.fst
      = (List.range cl.length).map cName
        ++ [cs ("start_date"), cs ("end_date")] := by
  rw [euParamsOf, List.map_append]
  congr 1
  rw [euCParams, List.map_map]
  have h1 : (Prod.fst ∘ fun ic : Nat × Str => (cName ic.1, PVal.vStr ic.2))
      = (cName ∘ Prod.fst) := rfl
  rw [h1, ← List.map_map, List.enum_map_fst]

theorem namedPlaceholders_top (lim : Int) :
    namedPlaceholders (sqlTopServicesA ++ intStr lim ++ sqlTopServicesB)
      = [cs ("year")] := by
  have hA : sqlTopServicesA = sqlTopServicesAHead ++ [' '] := by decide
  have hsh : sqlTopServicesA ++ intStr lim ++ sqlTopServicesB
      = sqlTopServicesAHead ++ ' ' :: (intStr lim ++ sqlTopServicesB) := by
    rw [hA]
    simp [List.append_assoc]
  rw [namedPlaceholders, hsh, phScan_break (by decide) (by decide)]
  have h1 : phScan sqlTopServicesAHead none = [cs ("year")] := by decide
  have h2 : phScan (intStr lim ++ sqlTopServicesB) none = [] := by
    apply phScan_nocolon_nil
    intro x hx
    rcases List.mem_append.mp hx with hm | hm
    · rcases List.mem_cons.mp (intStr_chars lim x hm) with hm2 | hm2
      · subst hm2; decide
      · exact (digit_facts hm2).2.2.2.1
    · have hB : ∀ x ∈ sqlTopServicesB, x ≠ ':' := by decide
      exact hB x hm
  rw [h1, h2]
  simp

theorem namedPlaceholders_eu (cl : List Str) (lim : Int) :
    namedPlaceholders (euSqlOf cl lim)
      = cs ("start_date") :: cs ("end_date")
        :: (List.range cl.length).map cName := by
  have hA : euSqlA = euSqlAHead ++ ['('] := by decide
  have hB : euSqlB = ')' :: euSqlBTail := by decide
  have hsh : euSqlOf cl lim = euSqlAHead ++ '(' ::
      (euPlaceholders cl.length
        ++ ')' :: (euSqlBTail ++ (intStr lim ++ euSqlC))) := by
    rw [euSqlOf, hA, hB]
    simp [List.append_assoc]
  rw [namedPlaceholders, hsh, phScan_break (by decide) (by decide)]
  have h1 : phScan euSqlAHead none
      = [cs ("start_date"), cs ("end_date")] := by decide
  rw [h1, euPlaceholders, List.range_eq_range', phScan_join cl.length 0 _]
  have h2 : phScan (euSqlBTail ++ (intStr lim ++ euSqlC)) none = [] := by
    apply phScan_nocolon_nil
    intro x hx
    rcases List.mem_append.mp hx with hm | hm
    · have hT : ∀ x ∈ euSqlBTail, x ≠ ':' := by decide
      exact hT x hm
    · rcases List.mem_append.mp hm with hm2 | hm2
      · rcases List.mem_cons.mp (intStr_chars lim x hm2) with hm3 | hm3
        · subst hm3; decide
        · exact (digit_facts hm3).2.2.2.1
      · have hC : ∀ x ∈ euSqlC, x ≠ ':' := by decide
        exact hC x hm2
  rw [h2]
  simp [List.range_eq_range']

/-- C9: for every supported plan, the named placeholders referenced in the
built SQL are exactly the keys of the params mapping; for TOP_SERVICES_EU_H2
with a non-empty countries list of length n the placeholder list is
start_date, end_date, c0 .. c(n-1), and each c<i> is bound to the
corresponding list element. -/
theorem c9_placeholder_params (p : QueryPlan) (b : BuiltSQL)
    (hb : build_sql p = some b) :
    (∀ k, k ∈ namedPlaceholders b.sql ↔ k ∈ b.params.map Prod.fst)
    ∧ (p.intent = cs ("TOP_SERVICES_EU_H2") → p.countries ≠ [] →
        namedPlaceholders b.sql
          = cs ("start_date") :: cs ("end_date")
            :: (List.range p.countries.length).map cName
        ∧ ∀ i (hi : i < p.countries.length),
            assocLookup (cName i) b.params
              = some (PVal.vStr (p.countries.get ⟨i, hi⟩))) := by
  by_cases hIlistClients : p.intent = cs ("LIST_CLIENTS")
  · rw [build_sql_eq_listClients p hIlistClients] at hb
    injection hb with hb
    subst hb
    refine ⟨fun k => Iff.rfl, ?_⟩
    intro hEU
    exact absurd (hIlistClients.symm.trans hEU) (by decide)
  by_cases hIclientsByCountry : p.intent = cs ("CLIENTS_BY_COUNTRY")
  · rw [build_sql_eq_clientsByCountry p hIclientsByCountry] at hb
    injection hb with hb
    subst hb
    refine ⟨fun k => Iff.rfl, ?_⟩
    intro hEU
    exact absurd (hIclientsByCountry.symm.trans hEU) (by decide)
  by_cases hIinvoicesByMonth : p.intent = cs ("INVOICES_BY_MONTH")
  · rw [build_sql_eq_invoicesByMonth p hIinvoicesByMonth] at hb
    injection hb with hb
    subst hb
    refine ⟨fun k => Iff.rfl, ?_⟩
    intro hEU
    exact absurd (hIinvoicesByMonth.symm.trans hEU) (by decide)
  by_cases hIinvoicesByStatus : p.intent = cs ("INVOICES_BY_STATUS")
  · rw [build_sql_eq_invoicesByStatus p hIinvoicesByStatus] at hb
    injection hb with hb
    subst hb
    refine ⟨fun k => Iff.rfl, ?_⟩
    intro hEU
    exact absurd (hIinvoicesByStatus.symm.trans hEU) (by decide)
  by_cases hIclientInvoices : p.intent = cs ("CLIENT_INVOICES")
  · rw [build_sql_eq_clientInvoices p hIclientInvoices] at hb
    injection hb with hb
    subst hb
    refine ⟨fun k => Iff.rfl, ?_⟩
    intro hEU
    exact absurd (hIclientInvoices.symm.trans hEU) (by decide)
  by_cases hIinvoicesByClientAndMonth : p.intent = cs ("INVOICES_BY_CLIENT_AND_MONTH")
  · rw [build_sql_eq_invoicesByClientAndMonth p hIinvoicesByClientAndMonth] at hb
    injection hb with hb
    subst hb
    refine ⟨fun k => Iff.rfl, ?_⟩
    intro hEU
    exact absurd (hIinvoicesByClientAndMonth.symm.trans hEU) (by decide)
  by_cases hIoverdueInvoices : p.intent = cs ("OVERDUE_INVOICES_AS_OF_DATE")
  · rw [build_sql_eq_overdueInvoices p hIoverdueInvoices] at hb
    injection hb with hb
    subst hb
    refine ⟨fun k => Iff.rfl, ?_⟩
    intro hEU
    exact absurd (hIoverdueInvoices.symm.trans hEU) (by decide)
  by_cases hIinvoiceLineItems : p.intent = cs ("INVOICE_LINE_ITEMS")
  · rw [build_sql_eq_invoiceLineItems p hIinvoiceLineItems] at hb
    injection hb with hb
    subst hb
    refine ⟨fun k => Iff.rfl, ?_⟩
    intro hEU
    exact absurd (hIinvoiceLineItems.symm.trans hEU) (by decide)
  by_cases hIlineItemCount : p.intent = cs ("LINE_ITEM_COUNT_BY_SERVICE")
  · rw [build_sql_eq_lineItemCount p hIlineItemCount] at hb
    injection hb with hb
    subst hb
    refine ⟨fun k => Iff.rfl, ?_⟩
    intro hEU
    exact absurd (hIlineItemCount.symm.trans hEU) (by decide)
  by_cases hIclientTotalBilled : p.intent = cs ("CLIENT_TOTAL_BILLED_BY_YEAR")
  · rw [build_sql_eq_clientTotalBilled p hIclientTotalBilled] at hb
    injection hb with hb
    subst hb
    refine ⟨fun k => Iff.rfl, ?_⟩
    intro hEU
    exact absurd (hIclientTotalBilled.symm.trans hEU) (by decide)
  by_cases hItopClientByYear : p.intent = cs ("TOP_CLIENT_BY_YEAR")
  · rw [build_sql_eq_topClientByYear p hItopClientByYear] at hb
    injection hb with hb
    subst hb
    refine ⟨fun k => Iff.rfl, ?_⟩
    intro hEU
    exact absurd (hItopClientByYear.symm.trans hEU) (by decide)
  by_cases hIrevenueByCountry : p.intent = cs ("REVENUE_BY_COUNTRY")
  · rw [build_sql_eq_revenueByCountry p hIrevenueByCountry] at hb
    injection hb with hb
    subst hb
    refine ⟨fun k => Iff.rfl, ?_⟩
    intro hEU
    exact absurd (hIrevenueByCountry.symm.trans hEU) (by decide)
  by_cases hIserviceClientTotals : p.intent = cs ("SERVICE_CLIENT_TOTALS")
  · rw [build_sql_eq_serviceClientTotals p hIserviceClientTotals] at hb
    injection hb with hb
    subst hb
    refine ⟨fun k => Iff.rfl, ?_⟩
    intro hEU
    exact absurd (hIserviceClientTotals.symm.trans hEU) (by decide)
  by_cases hItop : p.intent = cs ("TOP_SERVICES_BY_REVENUE")
  · rw [build_sql_eq_topServices p hItop] at hb
    injection hb with hb
    subst hb
    refine ⟨?_, ?_⟩
    · intro k
      show k ∈ namedPlaceholders (sqlTopServicesA
          ++ intStr (safe_limit p.limit 3 1 50) ++ sqlTopServicesB)
        ↔ k ∈ [cs ("year")]
      rw [namedPlaceholders_top]
    · intro hEU
      exact absurd (hItop.symm.trans hEU) (by decide)
  by_cases hIeu : p.intent = cs ("TOP_SERVICES_EU_H2")
  · rw [build_sql_eq_euH2 p hIeu] at hb
    injection hb with hb
    subst hb
    constructor
    · intro k
      show k ∈ namedPlaceholders (euSqlOf (countriesUsed p.countries)
            (safe_limit p.limit 3 1 50))
        ↔ k ∈ (euParamsOf (countriesUsed p.countries) p.start_date
            p.end_date).map Prod.fst
      rw [namedPlaceholders_eu, euParams_keys]
      simp only [List.mem_cons, List.mem_append]
      tauto
    · intro hEU hne
      have hcu : countriesUsed p.countries = p.countries := by
        rw [countriesUsed, if_neg hne]
      constructor
      · show namedPlaceholders (euSqlOf (countriesUsed p.countries)
            (safe_limit p.limit 3 1 50)) = _
        rw [namedPlaceholders_eu, hcu]
      · intro i hi
        show assocLookup (cName i) (euParamsOf (countriesUsed p.countries)
            p.start_date p.end_date) = _
        rw [hcu, euParamsOf, euCParams]
        have h0 : cName i = cName (0 + i) := by rw [Nat.zero_add]
        rw [h0]
        exact enumFrom_lookup p.countries 0 i hi _
  rw [build_sql_eq_none p hIlistClients hIclientsByCountry hIinvoicesByMonth hIinvoicesByStatus hIclientInvoices hIinvoicesByClientAndMonth hIoverdueInvoices hIinvoiceLineItems hIlineItemCount hIclientTotalBilled hItopClientByYear hItop hIrevenueByCountry hIserviceClientTotals hIeu] at hb
  exact Option.noConfusion hb

/-- Witness for C9 at the two-country EU plan: placeholders match params keys,
the placeholder list is start_date, end_date, c0, c1, and c1 is bound to the
second country. -/
theorem c9_placeholder_params_witness :
    (cs ("c1") ∈ namedPlaceholders bEU.sql
      ↔ cs ("c1") ∈ bEU.params.map Prod.fst)
    ∧ namedPlaceholders bEU.sql
        = cs ("start_date") :: cs ("end_date")
          :: (List.range pEU.countries.length).map cName
    ∧ assocLookup (cName 1) bEU.params = some (PVal.vStr (cs ("France"))) := by
  obtain ⟨h1, h2⟩ := c9_placeholder_params pEU bEU (by decide)
  obtain ⟨h3, h4⟩ := h2 rfl (by decide)
  exact ⟨h1 (cs ("c1")), h3, h4 1 (by decide)⟩
